import Mathlib

/-!
Verification development for the drone delivery management service.

The service dispatches delivery orders to a fleet of drones.  This file gives a
shallow embedding of the persisted data model (users, orders, drones backed by a
relational store), the repository operations (including the SQL selection query
`FindNextAvailableForReservation` and the `UNIQUE` constraint on
`drones.assigned_job`), and the RPC handlers of the dispatch engine
(`ReserveOrder`, `GrabOrder`, `CompleteOrder`, `MarkBroken`, `Heartbeat`,
`GetAssignedOrder`, `SetOrder`, `WithdrawOrder`, the admin mutations and the
admin gate `RequireAdmin`), together with the pagination cursor codec.

Floating point coordinates are modelled as rationals and the Haversine distance
primitive is kept abstract (the handlers are parametric in the distance
function); machine integers are modelled as `Nat` (ids are positive row ids).
The store is a triple of lists of rows; SQL `UPDATE ... WHERE id = ?` becomes a
map over the row list, and constraint violations are modelled explicitly.
-/

namespace DroneDelivery

/-- Order lifecycle statuses persisted in the orders table
(check constraint of migration 0002). -/
inductive OrderStatus where
  | placed
  | delivered
  | enRoute
  | failed
  | toPickUp
  | withdrawn
deriving DecidableEq, Repr

/-- Drone statuses persisted in the drones table (check constraint of migration 0003). -/
inductive DroneStatus where
  | fixed
  | broken
deriving DecidableEq, Repr

/-- A row of the orders table (models.Order). `dronePath` is the comma-delimited
string of drone ids; the SQL NULL path is modelled as the empty string.
`placementAt` is the placement timestamp, modelled as seconds so that the SQL
ordering on `placement_date` is numeric ascending. -/
structure Order where
  id : Nat
  originLat : ℚ
  originLng : ℚ
  destLat : ℚ
  destLng : ℚ
  status : OrderStatus
  placementAt : Nat
  submittedBy : Nat
  pickupLat : Option ℚ
  pickupLng : Option ℚ
  dronePath : String
deriving DecidableEq, Repr

/-- A row of the drones table (models.Drone). -/
structure Drone where
  id : Nat
  name : String
  serialNumber : String
  lat : ℚ
  lng : ℚ
  speedMPH : ℚ
  assignedJob : Option Nat
  status : DroneStatus
deriving DecidableEq, Repr

/-- A row of the users table (models.User). -/
structure User where
  id : Nat
  username : String
  role : String
deriving DecidableEq, Repr

/-- The relational store: the three tables. -/
structure Store where
  users : List User
  orders : List Order
  drones : List Drone
deriving DecidableEq, Repr

/-- The authenticated caller identity produced by the auth interceptor. -/
structure Principal where
  name : String
  kind : String
deriving DecidableEq, Repr

/-- gRPC status codes surfaced to clients. -/
inductive GrpcCode where
  | invalidArgument
  | unauthenticated
  | permissionDenied
  | notFound
  | failedPrecondition
  | aborted
  | internal
deriving DecidableEq, Repr

/-- Database level errors: a UNIQUE constraint violation, or zero rows affected
where the repository checks `RowsAffected` (`sql.ErrNoRows`). -/
inductive DbError where
  | uniqueViolation
  | noRows
deriving DecidableEq, Repr

instance exceptDecEq {ε α : Type} [DecidableEq ε] [DecidableEq α] : DecidableEq (Except ε α) :=
  fun x y =>
    match x, y with
    | Except.error a, Except.error b =>
        if h : a = b then Decidable.isTrue (by rw [h])
        else Decidable.isFalse (by intro hc; cases hc; exact h rfl)
    | Except.error _, Except.ok _ => Decidable.isFalse (by intro hc; cases hc)
    | Except.ok _, Except.error _ => Decidable.isFalse (by intro hc; cases hc)
    | Except.ok a, Except.ok b =>
        if h : a = b then Decidable.isTrue (by rw [h])
        else Decidable.isFalse (by intro hc; cases hc; exact h rfl)

/-- Point read of an order by id (`OrderRepository.GetByID`). -/
def findOrder (s : Store) (oid : Nat) : Option Order :=
  s.orders.find? (fun o => decide (o.id = oid))

/-- Point read of a drone by id (`DroneRepository.GetByID`). -/
def findDrone (s : Store) (did : Nat) : Option Drone :=
  s.drones.find? (fun d => decide (d.id = did))

/-- Point read of a user by username (`UserRepository.GetByUsername`). -/
def findUserByName (s : Store) (uname : String) : Option User :=
  s.users.find? (fun u => decide (u.username = uname))

/-- Drone resolution used by every drone RPC: look up by serial number and
fall back to name (`DroneServer.resolveDrone`). -/
def resolveDrone (s : Store) (pname : String) : Option Drone :=
  match s.drones.find? (fun d => decide (d.serialNumber = pname)) with
  | some d => some d
  | none => s.drones.find? (fun d => decide (d.name = pname))

/-- Whether the pattern is an initial segment of the character list. -/
def charsLeadWith : List Char → List Char → Bool
  | [], _ => true
  | _ :: _, [] => false
  | p :: ps, c :: cs => p == c && charsLeadWith ps cs

/-- Whether the pattern occurs as a contiguous substring of the character list
(SQLite `instr(hay, pat) <> 0`). -/
def charsContain (pat : List Char) : List Char → Bool
  | [] => charsLeadWith pat []
  | c :: cs => charsLeadWith pat (c :: cs) || charsContain pat cs

/-- The comma-padded membership test of the selection query:
`instr(',' || drone_path || ',', ',' || droneId || ',') <> 0`. -/
def paddedPathContains (path : String) (droneId : Nat) : Bool :=
  charsContain (',' :: (Nat.repr droneId).data ++ [',']) (',' :: path.data ++ [','])

/-- Filter predicate of `FindNextAvailableForReservation`: the order is not
currently assigned to any drone (LEFT JOIN finds no drone row), its status is
`to pick up` or `placed`, and the requesting drone id is not a comma-delimited
element of its `drone_path`. -/
def orderAvailable (s : Store) (droneId : Nat) (o : Order) : Bool :=
  decide ((∀ d ∈ s.drones, d.assignedJob ≠ some o.id)
    ∧ (o.status = OrderStatus.toPickUp ∨ o.status = OrderStatus.placed)
    ∧ paddedPathContains o.dronePath droneId = false)

/-- Sort rank of the status in the selection query:
`CASE WHEN status = 'to pick up' THEN 0 ELSE 1 END`. -/
def statusRank (st : OrderStatus) : Nat :=
  if st = OrderStatus.toPickUp then 0 else 1

/-- The full sort key of the selection query: status rank, then placement
timestamp ascending, then id ascending. -/
def reservationKey (o : Order) : Nat × Nat × Nat :=
  (statusRank o.status, o.placementAt, o.id)

/-- Strict lexicographic comparison of reservation sort keys. -/
def keyLt (a b : Nat × Nat × Nat) : Prop :=
  a.1 < b.1 ∨ (a.1 = b.1 ∧ (a.2.1 < b.2.1 ∨ (a.2.1 = b.2.1 ∧ a.2.2 < b.2.2)))

instance keyLtDecidable (a b : Nat × Nat × Nat) : Decidable (keyLt a b) := by
  unfold keyLt
  infer_instance

/-- Scan keeping the row with the least reservation key (the first row of the
query's `ORDER BY ... LIMIT 1`). -/
def pickMin : Option Order → List Order → Option Order
  | acc, [] => acc
  | none, o :: rest => pickMin (some o) rest
  | some b, o :: rest =>
      pickMin (some (if keyLt (reservationKey o) (reservationKey b) then o else b)) rest

/-- The selection query `FindNextAvailableForReservation(droneId)`:
the least row, under the reservation ordering, among the orders passing the
availability filter; `none` when no order passes. -/
def findNextAvailableForReservation (s : Store) (droneId : Nat) : Option Order :=
  pickMin none (s.orders.filter (orderAvailable s droneId))

/-- SQL `UPDATE orders SET status = ? WHERE id = ?` (`OrderRepository.UpdateStatus`). -/
def updateOrderStatus (s : Store) (oid : Nat) (st : OrderStatus) : Store :=
  { s with orders := s.orders.map (fun o => if o.id = oid then { o with status := st } else o) }

/-- SQL `UPDATE orders SET pickup_lat = ?, pickup_lng = ? WHERE id = ?`
(`OrderRepository.UpdatePickupLocation`). -/
def updateOrderPickup (s : Store) (oid : Nat) (lat lng : ℚ) : Store :=
  { s with orders := s.orders.map (fun o =>
      if o.id = oid then { o with pickupLat := some lat, pickupLng := some lng } else o) }

/-- The comma append of `AppendDronePath`: the path becomes the drone id when
empty, else gains a comma-separated suffix. -/
def appendPathStr (path : String) (droneId : Nat) : String :=
  if path = "" then Nat.repr droneId else path ++ "," ++ Nat.repr droneId

/-- SQL update of `AppendDronePath(orderId, droneId)`. -/
def appendDronePath (s : Store) (oid droneId : Nat) : Store :=
  { s with orders := s.orders.map (fun o =>
      if o.id = oid then { o with dronePath := appendPathStr o.dronePath droneId } else o) }

/-- SQL `UPDATE orders SET origin/dest coordinates WHERE id = ?` with the
zero-rows-affected check of `OrderRepository.UpdateLocations`. -/
def updateLocations (s : Store) (oid : Nat) (olat olng dlat dlng : ℚ) :
    Except DbError Store :=
  if s.orders.any (fun o => decide (o.id = oid)) then
    Except.ok { s with orders := s.orders.map (fun o =>
      if o.id = oid then
        { o with originLat := olat, originLng := olng, destLat := dlat, destLng := dlng }
      else o) }
  else Except.error DbError.noRows

/-- SQL `UPDATE drones SET assigned_job = NULL WHERE id = ?` (`UnassignJob`). -/
def unassignDrone (s : Store) (did : Nat) : Store :=
  { s with drones := s.drones.map (fun d => if d.id = did then { d with assignedJob := none } else d) }

/-- SQL `UPDATE drones SET status = ? WHERE id = ?` (`DroneRepository.UpdateStatus`). -/
def updateDroneStatusRow (s : Store) (did : Nat) (st : DroneStatus) : Store :=
  { s with drones := s.drones.map (fun d => if d.id = did then { d with status := st } else d) }

/-- SQL `UPDATE drones SET lat = ?, lng = ?, speed_mph = ? WHERE id = ?`
(`UpdateLocationAndSpeed`). -/
def updateDroneTelemetry (s : Store) (did : Nat) (lat lng speed : ℚ) : Store :=
  { s with drones := s.drones.map (fun d =>
      if d.id = did then { d with lat := lat, lng := lng, speedMPH := speed } else d) }

/-- SQL `UPDATE drones SET assigned_job = ? WHERE id = ?` (`AssignJob`), under
the `drones.assigned_job UNIQUE` constraint of migration 0003: the write fails
with a uniqueness violation when the updated row would duplicate the order id
held by a different drone row, and the store is unchanged in that case. -/
def assignJob (s : Store) (did oid : Nat) : Except DbError Store :=
  if s.drones.any (fun d => decide (d.id = did))
      ∧ s.drones.any (fun d => decide (d.id ≠ did ∧ d.assignedJob = some oid)) then
    Except.error DbError.uniqueViolation
  else
    Except.ok { s with drones := s.drones.map (fun d =>
      if d.id = did then { d with assignedJob := some oid } else d) }

/-- Fresh row id for an insert into the orders table (AUTOINCREMENT). -/
def nextOrderId (s : Store) : Nat :=
  (s.orders.map Order.id).foldr max 0 + 1

/-- Fresh row id for an insert into the drones table (AUTOINCREMENT). -/
def nextDroneId (s : Store) : Nat :=
  (s.drones.map Drone.id).foldr max 0 + 1

/-- Fresh row id for an insert into the users table (AUTOINCREMENT). -/
def nextUserId (s : Store) : Nat :=
  (s.users.map User.id).foldr max 0 + 1

/-- Insert of `OrderRepository.Create`: status defaults to `placed` when
unspecified, `placement_date` is assigned server side (`now`), pickup
coordinates NULL, path empty. Returns the materialized row. -/
def createOrder (s : Store) (olat olng dlat dlng : ℚ) (st : Option OrderStatus)
    (submitter : Nat) (now : Nat) : Order × Store :=
  let o : Order :=
    { id := nextOrderId s, originLat := olat, originLng := olng,
      destLat := dlat, destLng := dlng, status := st.getD OrderStatus.placed,
      placementAt := now, submittedBy := submitter,
      pickupLat := none, pickupLng := none, dronePath := "" }
  (o, { s with orders := s.orders ++ [o] })

/-- Insert of `UserRepository.Create`: role defaults to `end user`; fails on a
duplicate username (users.username UNIQUE). -/
def createUser (s : Store) (uname : String) : Except DbError (User × Store) :=
  if s.users.any (fun u => decide (u.username = uname)) then
    Except.error DbError.uniqueViolation
  else
    let u : User := { id := nextUserId s, username := uname, role := "end user" }
    Except.ok (u, { s with users := s.users ++ [u] })

/-- Insert of `DroneRepository.Create` under the UNIQUE constraints on
`serial_number` and `assigned_job`. -/
def createDrone (s : Store) (dname serial : String) (lat lng speed : ℚ)
    (assigned : Option Nat) (st : DroneStatus) : Except DbError (Drone × Store) :=
  if s.drones.any (fun d => decide (d.serialNumber = serial)) then
    Except.error DbError.uniqueViolation
  else if (∃ oid, assigned = some oid ∧ s.drones.any (fun d => decide (d.assignedJob = some oid))) then
    Except.error DbError.uniqueViolation
  else
    let d : Drone :=
      { id := nextDroneId s, name := dname, serialNumber := serial,
        lat := lat, lng := lng, speedMPH := speed, assignedJob := assigned, status := st }
    Except.ok (d, { s with drones := s.drones ++ [d] })

instance createDroneAssignedDec (s : Store) (assigned : Option Nat) :
    Decidable (∃ oid, assigned = some oid ∧ s.drones.any (fun d => decide (d.assignedJob = some oid))) :=
  match assigned with
  | none => Decidable.isFalse (by simp)
  | some oid =>
      if h : s.drones.any (fun d => decide (d.assignedJob = some oid)) then
        Decidable.isTrue ⟨oid, rfl, h⟩
      else
        Decidable.isFalse (by
          rintro ⟨o2, ho2, hany⟩
          cases Option.some.inj ho2
          exact h hany)

/-- `UpdateRoleByUsername`: sets the role of the matching user row. -/
def updateRoleByUsername (s : Store) (uname role : String) : Store :=
  { s with users := s.users.map (fun u => if u.username = uname then { u with role := role } else u) }

/-- The pickup/delivery geofence radius, in miles: `FeetToMiles(RadiusFeet)`
with a fixed 100 feet radius and 5280 feet per mile. -/
def radiusMiles : ℚ := 100 / 5280

/-- Abstract Haversine great-circle distance `(lat1, lng1, lat2, lng2) → miles`.
The handlers are parametric in it; no handler inspects its definition. -/
def DistanceFn : Type := ℚ → ℚ → ℚ → ℚ → ℚ

/-- `ReserveOrder` after the candidate has been selected: `AssignJob` (a
uniqueness violation is surfaced as Aborted "assign race"), then
`AppendDronePath`; the reserved order is returned as selected, its status
unmodified. -/
def reserveCommit (s : Store) (dr : Drone) (ord : Order) :
    Except GrpcCode Order × Store :=
  match assignJob s dr.id ord.id with
  | Except.error _ => (Except.error GrpcCode.aborted, s)
  | Except.ok s1 => (Except.ok ord, appendDronePath s1 ord.id dr.id)

/-- The `ReserveOrder` RPC: drone principal, resolve by serial then name,
reject broken or already-assigned drones, select a candidate, commit. -/
def reserveOrder (s : Store) (p : Principal) : Except GrpcCode Order × Store :=
  if p.kind ≠ "drone" then (Except.error GrpcCode.permissionDenied, s)
  else
    match resolveDrone s p.name with
    | none => (Except.error GrpcCode.notFound, s)
    | some dr =>
      if dr.status = DroneStatus.broken then (Except.error GrpcCode.failedPrecondition, s)
      else if dr.assignedJob.isSome then (Except.error GrpcCode.failedPrecondition, s)
      else
        match findNextAvailableForReservation s dr.id with
        | none => (Except.error GrpcCode.failedPrecondition, s)
        | some ord => reserveCommit s dr ord

/-- The pickup target of `GrabOrder`: the pickup coordinates when the order is
`to pick up` and both are set, else the origin. -/
def grabTarget (ord : Order) : ℚ × ℚ :=
  if ord.status = OrderStatus.toPickUp ∧ ord.pickupLat.isSome ∧ ord.pickupLng.isSome then
    (ord.pickupLat.getD 0, ord.pickupLng.getD 0)
  else (ord.originLat, ord.originLng)

/-- The `GrabOrder` RPC: requires an assignment whose order exists (else the
drone is unassigned and NotFound returned), a grabbable status, and the drone
within the pickup radius of the target; sets the order `en route`. -/
def grabOrder (hav : DistanceFn) (s : Store) (p : Principal) :
    Except GrpcCode Order × Store :=
  if p.kind ≠ "drone" then (Except.error GrpcCode.permissionDenied, s)
  else
    match resolveDrone s p.name with
    | none => (Except.error GrpcCode.notFound, s)
    | some dr =>
      match dr.assignedJob with
      | none => (Except.error GrpcCode.failedPrecondition, s)
      | some oid =>
        match findOrder s oid with
        | none => (Except.error GrpcCode.notFound, unassignDrone s dr.id)
        | some ord =>
          if ord.status ≠ OrderStatus.placed ∧ ord.status ≠ OrderStatus.toPickUp then
            (Except.error GrpcCode.failedPrecondition, s)
          else
            let tgt := grabTarget ord
            if hav dr.lat dr.lng tgt.1 tgt.2 > radiusMiles then
              (Except.error GrpcCode.failedPrecondition, s)
            else
              let s1 := updateOrderStatus s oid OrderStatus.enRoute
              (Except.ok ((findOrder s1 oid).getD ord), s1)

/-- The `CompleteOrder` RPC: requires an assignment whose order exists (else
unassign and NotFound) and the drone within the destination radius; sets the
final status from the `delivered` flag and clears the assignment. -/
def completeOrder (hav : DistanceFn) (s : Store) (p : Principal) (delivered : Bool) :
    Except GrpcCode Order × Store :=
  if p.kind ≠ "drone" then (Except.error GrpcCode.permissionDenied, s)
  else
    match resolveDrone s p.name with
    | none => (Except.error GrpcCode.notFound, s)
    | some dr =>
      match dr.assignedJob with
      | none => (Except.error GrpcCode.failedPrecondition, s)
      | some oid =>
        match findOrder s oid with
        | none => (Except.error GrpcCode.notFound, unassignDrone s dr.id)
        | some ord =>
          if hav dr.lat dr.lng ord.destLat ord.destLng > radiusMiles then
            (Except.error GrpcCode.failedPrecondition, s)
          else
            let finalStatus := if delivered then OrderStatus.delivered else OrderStatus.failed
            let s1 := updateOrderStatus s oid finalStatus
            let s2 := unassignDrone s1 dr.id
            (Except.ok ((findOrder s2 oid).getD ord), s2)

/-- Write-failure injection for `MarkBroken`: whether each of the three store
writes of the handler reports an error (a failed SQL update leaves the store
unchanged by that write). -/
structure MarkBrokenFailures where
  statusWriteFails : Bool
  pickupWriteFails : Bool
  droneStatusWriteFails : Bool
deriving DecidableEq, Repr

/-- Tail of `MarkBroken`: set the drone status to `broken` and return the
re-fetched affected order (if any). -/
def finishBroken (flags : MarkBrokenFailures) (s : Store) (dr : Drone)
    (affected : Option Order) : Except GrpcCode (Option Order) × Store :=
  if flags.droneStatusWriteFails then (Except.error GrpcCode.internal, s)
  else
    let s1 := updateDroneStatusRow s dr.id DroneStatus.broken
    (Except.ok (match affected with
      | some a => findOrder s1 a.id
      | none => none), s1)

/-- The `MarkBroken` RPC with write-failure injection. When the drone carries
an order in `en route`, the order is handed off: status `to pick up`, pickup
set to the drone's current location. The drone is unassigned whenever it was
assigned, then marked broken. Each failing write aborts the handler at that
point with an Internal error. -/
def markBrokenWith (flags : MarkBrokenFailures) (s : Store) (p : Principal) :
    Except GrpcCode (Option Order) × Store :=
  if p.kind ≠ "drone" then (Except.error GrpcCode.permissionDenied, s)
  else
    match resolveDrone s p.name with
    | none => (Except.error GrpcCode.notFound, s)
    | some dr =>
      match dr.assignedJob with
      | none => finishBroken flags s dr none
      | some oid =>
        match findOrder s oid with
        | none => finishBroken flags (unassignDrone s dr.id) dr none
        | some ord =>
          if ord.status = OrderStatus.enRoute then
            if flags.statusWriteFails then (Except.error GrpcCode.internal, s)
            else
              let s1 := updateOrderStatus s oid OrderStatus.toPickUp
              if flags.pickupWriteFails then (Except.error GrpcCode.internal, s1)
              else
                let s2 := updateOrderPickup s1 oid dr.lat dr.lng
                finishBroken flags (unassignDrone s2 dr.id) dr (some ord)
          else finishBroken flags (unassignDrone s dr.id) dr none

/-- The `MarkBroken` RPC on the happy path (every store write succeeds). -/
def markBroken (s : Store) (p : Principal) : Except GrpcCode (Option Order) × Store :=
  markBrokenWith ⟨false, false, false⟩ s p

/-- The `Heartbeat` RPC: requires a location, updates the drone's position and
speed; broken drones may still heartbeat. -/
def heartbeat (s : Store) (p : Principal) (loc : Option (ℚ × ℚ)) (speed : ℚ) :
    Except GrpcCode Unit × Store :=
  if p.kind ≠ "drone" then (Except.error GrpcCode.permissionDenied, s)
  else
    match loc with
    | none => (Except.error GrpcCode.invalidArgument, s)
    | some l =>
      match resolveDrone s p.name with
      | none => (Except.error GrpcCode.notFound, s)
      | some dr => (Except.ok (), updateDroneTelemetry s dr.id l.1 l.2 speed)

/-- ETA computation of the drone server (`calculateETA`), in seconds. -/
def calculateETA (hav : DistanceFn) (ord : Order) (dr : Drone) : ℚ :=
  if dr.speedMPH ≤ 0 then 0
  else
    match ord.status with
    | OrderStatus.placed | OrderStatus.toPickUp =>
      let start :=
        if ord.status = OrderStatus.toPickUp ∧ ord.pickupLat.isSome ∧ ord.pickupLng.isSome then
          (ord.pickupLat.getD 0, ord.pickupLng.getD 0)
        else (ord.originLat, ord.originLng)
      (hav dr.lat dr.lng start.1 start.2 + hav start.1 start.2 ord.destLat ord.destLng)
        / dr.speedMPH * 3600
    | OrderStatus.enRoute => hav dr.lat dr.lng ord.destLat ord.destLng / dr.speedMPH * 3600
    | _ => 0

/-- The `GetAssignedOrder` RPC: requires an assignment whose order exists;
returns the order and its ETA. Read only. -/
def getAssignedOrder (hav : DistanceFn) (s : Store) (p : Principal) :
    Except GrpcCode (Order × ℚ) × Store :=
  if p.kind ≠ "drone" then (Except.error GrpcCode.permissionDenied, s)
  else
    match resolveDrone s p.name with
    | none => (Except.error GrpcCode.notFound, s)
    | some dr =>
      match dr.assignedJob with
      | none => (Except.error GrpcCode.failedPrecondition, s)
      | some oid =>
        match findOrder s oid with
        | none => (Except.error GrpcCode.internal, s)
        | some ord => (Except.ok (ord, calculateETA hav ord dr), s)

/-- The `SetOrder` RPC: end user or admin principal, resolve the user, create a
`placed` order submitted by that user. -/
def setOrder (s : Store) (p : Principal) (olat olng dlat dlng : ℚ) (now : Nat) :
    Except GrpcCode Order × Store :=
  if p.kind ≠ "enduser" ∧ p.kind ≠ "admin" then (Except.error GrpcCode.permissionDenied, s)
  else
    match findUserByName s p.name with
    | none => (Except.error GrpcCode.notFound, s)
    | some u =>
      let r := createOrder s olat olng dlat dlng (some OrderStatus.placed) u.id now
      (Except.ok r.1, r.2)

/-- The `WithdrawOrder` RPC: the order must exist and belong to the caller;
its status is set to `withdrawn` unconditionally on the current status. -/
def withdrawOrder (s : Store) (p : Principal) (orderId : Nat) :
    Except GrpcCode Order × Store :=
  if orderId = 0 then (Except.error GrpcCode.invalidArgument, s)
  else if p.kind ≠ "enduser" ∧ p.kind ≠ "admin" then (Except.error GrpcCode.permissionDenied, s)
  else
    match findUserByName s p.name with
    | none => (Except.error GrpcCode.notFound, s)
    | some u =>
      match findOrder s orderId with
      | none => (Except.error GrpcCode.notFound, s)
      | some ord =>
        if ord.submittedBy ≠ u.id then (Except.error GrpcCode.permissionDenied, s)
        else
          let s1 := updateOrderStatus s orderId OrderStatus.withdrawn
          (Except.ok ((findOrder s1 orderId).getD ord), s1)

/-- ASCII whitespace trimmed by `strings.TrimSpace`. -/
def isSpaceChar (c : Char) : Bool :=
  c == ' ' || c == '\t' || c == '\n' || c == '\x0b' || c == '\x0c' || c == '\r'

/-- Drop leading whitespace characters. -/
def dropSpaces : List Char → List Char
  | [] => []
  | c :: cs => if isSpaceChar c then dropSpaces cs else c :: cs

/-- Characters of `strings.TrimSpace`: whitespace removed from both ends. -/
def trimChars (l : List Char) : List Char :=
  (dropSpaces (dropSpaces l.reverse).reverse)

/-- The role normalization of `RequireAdmin`:
`strings.ToLower(strings.TrimSpace(role)) == "admin"`. -/
def roleIsAdmin (role : String) : Bool :=
  (trimChars role.data).map Char.toLower == "admin".data

/-- The admin gate `RequireAdmin`: the principal must self-claim kind `admin`
and the persisted user row for its name must exist with a role whose
trimmed, lowercased value is `admin`. -/
def requireAdmin (s : Store) (p : Principal) : Except GrpcCode Unit :=
  if p.kind ≠ "admin" then Except.error GrpcCode.permissionDenied
  else
    match findUserByName s p.name with
    | none => Except.error GrpcCode.permissionDenied
    | some u =>
      if roleIsAdmin u.role then Except.ok ()
      else Except.error GrpcCode.permissionDenied

/-- The admin `UpdateOrderLocation` RPC: gate, required order id, targeted
coordinate update (zero rows affected surfaces as NotFound), re-fetch. -/
def adminUpdateOrderLocation (s : Store) (p : Principal) (orderId : Nat)
    (olat olng dlat dlng : ℚ) : Except GrpcCode Order × Store :=
  match requireAdmin s p with
  | Except.error c => (Except.error c, s)
  | Except.ok _ =>
    if orderId = 0 then (Except.error GrpcCode.invalidArgument, s)
    else
      match updateLocations s orderId olat olng dlat dlng with
      | Except.error _ => (Except.error GrpcCode.notFound, s)
      | Except.ok s1 =>
        match findOrder s1 orderId with
        | none => (Except.error GrpcCode.notFound, s1)
        | some ord => (Except.ok ord, s1)

/-- The admin `UpdateDroneStatus` RPC: gate, required drone id, a specified
status, targeted status update, re-fetch (missing drone surfaces as NotFound). -/
def adminUpdateDroneStatus (s : Store) (p : Principal) (droneId : Nat)
    (st : Option DroneStatus) : Except GrpcCode Drone × Store :=
  match requireAdmin s p with
  | Except.error c => (Except.error c, s)
  | Except.ok _ =>
    if droneId = 0 then (Except.error GrpcCode.invalidArgument, s)
    else
      match st with
      | none => (Except.error GrpcCode.invalidArgument, s)
      | some st0 =>
        let s1 := updateDroneStatusRow s droneId st0
        match findDrone s1 droneId with
        | none => (Except.error GrpcCode.notFound, s1)
        | some d => (Except.ok d, s1)

/-- The URL-safe base64 alphabet of `base64.RawURLEncoding`. -/
def b64Alphabet : List Char :=
  "ABCDEFGHIJKLMNOPQRSTUVWXYZabcdefghijklmnopqrstuvwxyz0123456789-_".toList

/-- Character for a 6-bit group. -/
def b64Char (v : Nat) : Char :=
  b64Alphabet.getD v 'A'

/-- Six-bit value of an alphabet character; `none` for a character outside the
alphabet. -/
def b64Val (c : Char) : Option Nat :=
  b64Alphabet.findIdx? (fun a => a == c)

/-- Raw (unpadded) base64 encoding of a byte sequence: blocks of three bytes
become four characters; a final block of one or two bytes becomes two or three
characters. -/
def b64EncodeBytes : List Nat → List Char
  | [] => []
  | [b1] => [b64Char (b1 / 4), b64Char (b1 % 4 * 16)]
  | [b1, b2] => [b64Char (b1 / 4), b64Char (b1 % 4 * 16 + b2 / 16), b64Char (b2 % 16 * 4)]
  | b1 :: b2 :: b3 :: rest =>
      b64Char (b1 / 4) :: b64Char (b1 % 4 * 16 + b2 / 16) ::
        b64Char (b2 % 16 * 4 + b3 / 64) :: b64Char (b3 % 64) :: b64EncodeBytes rest

/-- Raw (unpadded) base64 decoding: fails on a character outside the alphabet
or on a leftover block of a single character (an input length of 1 mod 4). -/
def b64DecodeChars : List Char → Option (List Nat)
  | [] => some []
  | [_] => none
  | [c1, c2] => do
      let v1 ← b64Val c1
      let v2 ← b64Val c2
      pure [v1 * 4 + v2 / 16]
  | [c1, c2, c3] => do
      let v1 ← b64Val c1
      let v2 ← b64Val c2
      let v3 ← b64Val c3
      pure [v1 * 4 + v2 / 16, v2 % 16 * 16 + v3 / 4]
  | c1 :: c2 :: c3 :: c4 :: rest => do
      let v1 ← b64Val c1
      let v2 ← b64Val c2
      let v3 ← b64Val c3
      let v4 ← b64Val c4
      let tail ← b64DecodeChars rest
      pure ((v1 * 4 + v2 / 16) :: (v2 % 16 * 16 + v3 / 4) :: (v3 % 4 * 64 + v4) :: tail)

/-- Structural validity of a raw URL-safe base64 string: every character is in
the alphabet and the length is not 1 modulo 4. -/
def validB64 (token : List Char) : Bool :=
  token.all (fun c => (b64Val c).isSome) && decide (token.length % 4 ≠ 1)

/-- Fuel-driven digit expansion; the fuel always dominates the value. -/
def decDigitsAux : Nat → Nat → List Nat
  | 0, _ => []
  | fuel + 1, n => if n < 10 then [48 + n] else decDigitsAux fuel (n / 10) ++ [48 + n % 10]

/-- Decimal digit bytes of a natural number, most significant first
(`strconv.FormatInt(n, 10)` for a nonnegative value, as UTF-8 bytes). -/
def decDigits (n : Nat) : List Nat :=
  decDigitsAux (n + 1) n

/-- Numeric value accumulated over decimal digit bytes. -/
def digitsVal (l : List Nat) : Nat :=
  l.foldl (fun acc b => acc * 10 + (b - 48)) 0

/-- Whether a byte is an ASCII decimal digit. -/
def isDigitByte (b : Nat) : Bool :=
  decide (48 ≤ b ∧ b ≤ 57)

/-- Parse of `strconv.ParseInt(s, 10, 64)` restricted to the unsigned digit
strings the cursor codec produces: requires a nonempty all-digit byte string
whose value fits in a signed 64-bit integer. -/
def parseDecBytes (l : List Nat) : Option Nat :=
  if l = [] then none
  else if l.all isDigitByte then
    if digitsVal l < 2 ^ 63 then some (digitsVal l) else none
  else none

/-- Go's `strings.SplitN(s, sep, 2)` on bytes, demanding that the separator
occurs (the handler rejects a cursor without the separator): the bytes before
the first separator and everything after it. -/
def splitAtSep (sep : Nat) : List Nat → Option (List Nat × List Nat)
  | [] => none
  | b :: rest =>
      if b = sep then some ([], rest)
      else
        match splitAtSep sep rest with
        | none => none
        | some (l, r) => some (b :: l, r)

/-- The opaque pagination token `encodeCursor(seconds, id)`: raw URL-safe
base64 of the bytes of `"<seconds>|<id>"` (124 is the byte of the separator). -/
def encodeCursor (seconds oid : Nat) : List Char :=
  b64EncodeBytes (decDigits seconds ++ 124 :: decDigits oid)

/-- The cursor parser `decodeCursor`: base64-decode the token, split at the
separator, parse both decimal components. -/
def decodeCursor (token : List Char) : Option (Nat × Nat) := do
  let bytes ← b64DecodeChars token
  let parts ← splitAtSep 124 bytes
  let sec ← parseDecBytes parts.1
  let pid ← parseDecBytes parts.2
  pure (sec, pid)

/-- A transition of the store: one call of any state-changing operation of the
service (RPC handlers, plus the repository inserts that seed users and
drones), at arbitrary arguments, taking the store to the post state of the
call — including the post states of failing calls. -/
inductive Step (hav : DistanceFn) : Store → Store → Prop
  | setOrderStep (s : Store) (p : Principal) (a b c d : ℚ) (now : Nat) :
      Step hav s (setOrder s p a b c d now).2
  | withdrawStep (s : Store) (p : Principal) (oid : Nat) :
      Step hav s (withdrawOrder s p oid).2
  | reserveStep (s : Store) (p : Principal) :
      Step hav s (reserveOrder s p).2
  | grabStep (s : Store) (p : Principal) :
      Step hav s (grabOrder hav s p).2
  | completeStep (s : Store) (p : Principal) (delivered : Bool) :
      Step hav s (completeOrder hav s p delivered).2
  | brokenStep (s : Store) (p : Principal) (flags : MarkBrokenFailures) :
      Step hav s (markBrokenWith flags s p).2
  | heartbeatStep (s : Store) (p : Principal) (loc : Option (ℚ × ℚ)) (speed : ℚ) :
      Step hav s (heartbeat s p loc speed).2
  | adminOrderLocStep (s : Store) (p : Principal) (oid : Nat) (a b c d : ℚ) :
      Step hav s (adminUpdateOrderLocation s p oid a b c d).2
  | adminDroneStatusStep (s : Store) (p : Principal) (did : Nat) (st : Option DroneStatus) :
      Step hav s (adminUpdateDroneStatus s p did st).2
  | updateRoleStep (s : Store) (uname role : String) :
      Step hav s (updateRoleByUsername s uname role)
  | newUserStep (s : Store) (uname : String) (u : User) (s2 : Store)
      (h : createUser s uname = Except.ok (u, s2)) :
      Step hav s s2
  | newDroneStep (s : Store) (dname serial : String) (lat lng speed : ℚ)
      (assigned : Option Nat) (st : DroneStatus) (d : Drone) (s2 : Store)
      (h : createDrone s dname serial lat lng speed assigned st = Except.ok (d, s2)) :
      Step hav s s2

/-- The empty store the migrated database starts from. -/
def emptyStore : Store :=
  { users := [], orders := [], drones := [] }

/-- States reachable from the empty store by service operations. -/
inductive Reachable (hav : DistanceFn) : Store → Prop
  | init : Reachable hav emptyStore
  | step {s s2 : Store} : Reachable hav s → Step hav s s2 → Reachable hav s2

/-- Each order id is held by at most one drone row: distinct rows of the
drones table never share a non-null `assignedJob`. -/
def UniqueAssignment (s : Store) : Prop :=
  s.drones.Pairwise (fun d1 d2 => ∀ oid, d1.assignedJob = some oid → d2.assignedJob ≠ some oid)

/-- Well-formedness of the drones table used in the invariant proof: row ids
are pairwise distinct (primary key) and assignments are unique. -/
def DronesInv (s : Store) : Prop :=
  (s.drones.map Drone.id).Nodup ∧ UniqueAssignment s

theorem keyLt_irrefl (a : Nat × Nat × Nat) : ¬ keyLt a a := by
  obtain ⟨a1, a2, a3⟩ := a
  simp only [keyLt]
  omega

theorem keyLt_trans {a b c : Nat × Nat × Nat} (h1 : keyLt a b) (h2 : keyLt b c) : keyLt a c := by
  obtain ⟨a1, a2, a3⟩ := a
  obtain ⟨b1, b2, b3⟩ := b
  obtain ⟨c1, c2, c3⟩ := c
  simp only [keyLt] at h1 h2 ⊢
  omega

theorem keyLt_flip {a b c : Nat × Nat × Nat} (h1 : ¬ keyLt a b) (h2 : keyLt a c) : keyLt b c := by
  obtain ⟨a1, a2, a3⟩ := a
  obtain ⟨b1, b2, b3⟩ := b
  obtain ⟨c1, c2, c3⟩ := c
  simp only [keyLt] at h1 h2 ⊢
  omega

theorem keyLt_total {a b : Nat × Nat × Nat} (h : a ≠ b) : keyLt a b ∨ keyLt b a := by
  obtain ⟨a1, a2, a3⟩ := a
  obtain ⟨b1, b2, b3⟩ := b
  simp only [ne_eq, Prod.mk.injEq, not_and] at h
  simp only [keyLt]
  by_cases h1 : a1 = b1
  · by_cases h2 : a2 = b2
    · have h3 : a3 ≠ b3 := h h1 h2
      omega
    · omega
  · omega

theorem pickMin_spec (l : List Order) :
    ∀ b : Order, ∃ r, pickMin (some b) l = some r ∧ (r = b ∨ r ∈ l) ∧
      ∀ x, (x = b ∨ x ∈ l) → ¬ keyLt (reservationKey x) (reservationKey r) := by
  induction l with
  | nil =>
    intro b
    refine ⟨b, rfl, Or.inl rfl, ?_⟩
    rintro x (rfl | hx)
    · exact keyLt_irrefl _
    · cases hx
  | cons o rest ih =>
    intro b
    by_cases hlt : keyLt (reservationKey o) (reservationKey b)
    · obtain ⟨r, hr, hmem, hmin⟩ := ih o
      refine ⟨r, ?_, ?_, ?_⟩
      · simpa [pickMin, if_pos hlt] using hr
      · rcases hmem with rfl | h
        · exact Or.inr (List.mem_cons_self _ _)
        · exact Or.inr (List.mem_cons_of_mem _ h)
      · rintro x (rfl | hx)
        · intro hxr
          exact hmin o (Or.inl rfl) (keyLt_trans hlt hxr)
        · rcases List.mem_cons.mp hx with rfl | hx2
          · exact hmin x (Or.inl rfl)
          · exact hmin x (Or.inr hx2)
    · obtain ⟨r, hr, hmem, hmin⟩ := ih b
      refine ⟨r, ?_, ?_, ?_⟩
      · simpa [pickMin, if_neg hlt] using hr
      · rcases hmem with rfl | h
        · exact Or.inl rfl
        · exact Or.inr (List.mem_cons_of_mem _ h)
      · rintro x (rfl | hx)
        · exact hmin x (Or.inl rfl)
        · rcases List.mem_cons.mp hx with rfl | hx2
          · intro hxr
            exact hmin b (Or.inl rfl) (keyLt_flip hlt hxr)
          · exact hmin x (Or.inr hx2)

/-- C1: for every store state (with distinct order row ids, the primary key)
and every drone id, `FindNextAvailableForReservation` returns an order `o` if
and only if `o` passes all three filter predicates — no drone row has
`assignedJob = o.id`, `o.status` is `to pick up` or `placed`, and the drone id
is not a comma-delimited element of `o.dronePath` — and `o` is first among all
orders passing the filters under the ordering status `to pick up` before
`placed`, then ascending `placementAt`, then ascending id; it returns no order
exactly when no order passes the filters. -/
theorem findNext_selection_policy (s : Store) (droneId : Nat)
    (hnd : (s.orders.map Order.id).Nodup) :
    (∀ o, findNextAvailableForReservation s droneId = some o ↔
        (o ∈ s.orders ∧ orderAvailable s droneId o = true ∧
          ∀ o2 ∈ s.orders, orderAvailable s droneId o2 = true → o2 ≠ o →
            keyLt (reservationKey o) (reservationKey o2)))
    ∧ (findNextAvailableForReservation s droneId = none ↔
        ∀ o ∈ s.orders, orderAvailable s droneId o = false) := by
  have hidinj : ∀ a ∈ s.orders, ∀ b ∈ s.orders, a.id = b.id → a = b :=
    List.inj_on_of_nodup_map hnd
  have hkeyinj : ∀ a ∈ s.orders, ∀ b ∈ s.orders,
      reservationKey a = reservationKey b → a = b := by
    intro a ha b hb hk
    apply hidinj a ha b hb
    have := congrArg (fun t => t.2.2) hk
    simpa [reservationKey] using this
  constructor
  · intro o
    constructor
    · intro hsome
      unfold findNextAvailableForReservation at hsome
      rcases hfl : s.orders.filter (orderAvailable s droneId) with _ | ⟨c, rest⟩
      · rw [hfl] at hsome
        simp [pickMin] at hsome
      · rw [hfl] at hsome
        obtain ⟨r, hr, hmem, hmin⟩ := pickMin_spec rest c
        have hro : r = o := by
          have : pickMin (some c) rest = some o := hsome
          rw [hr] at this
          exact Option.some.inj this
        subst hro
        have hrfl : r ∈ s.orders.filter (orderAvailable s droneId) := by
          rw [hfl]
          rcases hmem with rfl | h
          · exact List.mem_cons_self _ _
          · exact List.mem_cons_of_mem _ h
        have hrmem := List.mem_filter.mp hrfl
        refine ⟨hrmem.1, hrmem.2, ?_⟩
        intro o2 ho2 ho2av ho2ne
        have ho2fl : o2 ∈ s.orders.filter (orderAvailable s droneId) :=
          List.mem_filter.mpr ⟨ho2, ho2av⟩
        have ho2cr : o2 = c ∨ o2 ∈ rest := by
          rw [hfl] at ho2fl
          exact List.mem_cons.mp ho2fl
        have hnlt : ¬ keyLt (reservationKey o2) (reservationKey r) := by
          rcases ho2cr with rfl | h
          · exact hmin o2 (Or.inl rfl)
          · exact hmin o2 (Or.inr h)
        have hkne : reservationKey r ≠ reservationKey o2 := by
          intro hk
          exact ho2ne (hkeyinj o2 ho2 r hrmem.1 hk.symm)
        rcases keyLt_total hkne with h | h
        · exact h
        · exact absurd h hnlt
    · rintro ⟨ho, hoav, homin⟩
      have hofl : o ∈ s.orders.filter (orderAvailable s droneId) :=
        List.mem_filter.mpr ⟨ho, hoav⟩
      unfold findNextAvailableForReservation
      rcases hfl : s.orders.filter (orderAvailable s droneId) with _ | ⟨c, rest⟩
      · rw [hfl] at hofl
        cases hofl
      · obtain ⟨r, hr, hmem, hmin⟩ := pickMin_spec rest c
        have hrfl : r ∈ s.orders.filter (orderAvailable s droneId) := by
          rw [hfl]
          rcases hmem with rfl | h
          · exact List.mem_cons_self _ _
          · exact List.mem_cons_of_mem _ h
        have hrmem := List.mem_filter.mp hrfl
        have hocr : o = c ∨ o ∈ rest := by
          rw [hfl] at hofl
          exact List.mem_cons.mp hofl
        have hnlt : ¬ keyLt (reservationKey o) (reservationKey r) := by
          rcases hocr with rfl | h
          · exact hmin o (Or.inl rfl)
          · exact hmin o (Or.inr h)
        have hreq : r = o := by
          by_contra hne
          exact hnlt (homin r hrmem.1 hrmem.2 hne)
        exact hreq ▸ hr
  · unfold findNextAvailableForReservation
    rcases hfl : s.orders.filter (orderAvailable s droneId) with _ | ⟨c, rest⟩
    · simp only [pickMin]
      constructor
      · intro _ o ho
        by_contra hoav
        have : o ∈ s.orders.filter (orderAvailable s droneId) :=
          List.mem_filter.mpr ⟨ho, by simpa using hoav⟩
        rw [hfl] at this
        cases this
      · intro _
        trivial
    · obtain ⟨r, hr, _, _⟩ := pickMin_spec rest c
      constructor
      · intro hnone
        have h2 : (some r : Option Order) = none := by
          rw [← hr]
          exact hnone
        exact Option.noConfusion h2
      · intro hall
        have hc : c ∈ s.orders.filter (orderAvailable s droneId) := by
          rw [hfl]
          exact List.mem_cons_self _ _
        have hcmem := List.mem_filter.mp hc
        rw [hall c hcmem.1] at hcmem
        cases hcmem.2

/-- Concrete placed order used by the selection witness. -/
def selOrd1 : Order :=
  { id := 1, originLat := 0, originLng := 0, destLat := 1, destLng := 1,
    status := OrderStatus.placed, placementAt := 1, submittedBy := 1,
    pickupLat := none, pickupLng := none, dronePath := "" }

/-- Concrete handed-off order used by the selection witness. -/
def selOrd2 : Order :=
  { id := 2, originLat := 0, originLng := 0, destLat := 1, destLng := 1,
    status := OrderStatus.toPickUp, placementAt := 2, submittedBy := 1,
    pickupLat := some 1, pickupLng := some 1, dronePath := "1" }

/-- Concrete order excluded both by assignment and by its drone path. -/
def selOrd3 : Order :=
  { id := 3, originLat := 0, originLng := 0, destLat := 1, destLng := 1,
    status := OrderStatus.placed, placementAt := 0, submittedBy := 1,
    pickupLat := none, pickupLng := none, dronePath := "2" }

/-- Concrete store of the selection witness: order 3 is held by drone 9. -/
def selStore : Store :=
  { users := [{ id := 1, username := "bob", role := "end user" }],
    orders := [selOrd1, selOrd2, selOrd3],
    drones := [{ id := 9, name := "d9", serialNumber := "S-9", lat := 0, lng := 0,
                 speedMPH := 10, assignedJob := some 3, status := DroneStatus.fixed }] }

theorem findNext_selection_policy_witness :
    (selStore.orders.map Order.id).Nodup ∧
      findNextAvailableForReservation selStore 2 = some selOrd2 :=
  ⟨by decide,
    ((findNext_selection_policy selStore 2 (by decide)).1 selOrd2).mpr
      ⟨by decide, by decide, by decide⟩⟩

theorem dronesInv_of_drones_eq {s s2 : Store} (h : s2.drones = s.drones)
    (hi : DronesInv s) : DronesInv s2 := by
  unfold DronesInv UniqueAssignment at *
  rw [h]
  exact hi

theorem dronesInv_map {s : Store} (f : Drone → Drone)
    (hid : ∀ d, (f d).id = d.id)
    (hasg : ∀ d oid, (f d).assignedJob = some oid → d.assignedJob = some oid)
    (hi : DronesInv s) :
    DronesInv { s with drones := s.drones.map f } := by
  obtain ⟨hnd, hua⟩ := hi
  constructor
  · show ((s.drones.map f).map Drone.id).Nodup
    rw [List.map_map]
    have : s.drones.map (Drone.id ∘ f) = s.drones.map Drone.id :=
      List.map_congr_left (fun d _ => hid d)
    rw [this]
    exact hnd
  · show ((s.drones.map f).Pairwise _)
    exact List.Pairwise.map f
      (fun a b hab oid hfa hfb => hab oid (hasg a oid hfa) (hasg b oid hfb)) hua

theorem le_foldr_max (l : List Nat) : ∀ x ∈ l, x ≤ l.foldr max 0 := by
  induction l with
  | nil => intro x hx; cases hx
  | cons a rest ih =>
    intro x hx
    rcases List.mem_cons.mp hx with rfl | h
    · exact le_max_left _ _
    · exact le_trans (ih x h) (le_max_right _ _)

theorem nextDroneId_fresh (s : Store) : nextDroneId s ∉ s.drones.map Drone.id := by
  intro hmem
  have := le_foldr_max (s.drones.map Drone.id) _ hmem
  unfold nextDroneId at this
  omega

theorem pairwise_assign_update (l : List Drone) (did oid : Nat)
    (hnodup : (l.map Drone.id).Nodup)
    (hno : ∀ d ∈ l, d.id ≠ did → d.assignedJob ≠ some oid)
    (hp : l.Pairwise (fun d1 d2 => ∀ o, d1.assignedJob = some o → d2.assignedJob ≠ some o)) :
    (l.map (fun d => if d.id = did then { d with assignedJob := some oid } else d)).Pairwise
      (fun d1 d2 => ∀ o, d1.assignedJob = some o → d2.assignedJob ≠ some o) := by
  induction l with
  | nil => exact List.Pairwise.nil
  | cons d rest ih =>
    rw [List.map_cons, List.pairwise_cons]
    rw [List.map_cons, List.nodup_cons] at hnodup
    obtain ⟨hdnot, hndrest⟩ := hnodup
    rw [List.pairwise_cons] at hp
    obtain ⟨hhead, hprest⟩ := hp
    refine ⟨?_, ih hndrest (fun x hx => hno x (List.mem_cons_of_mem _ hx)) hprest⟩
    intro b hb
    obtain ⟨d2, hd2, hfd2⟩ := List.mem_map.mp hb
    by_cases hdid : d.id = did
    · have hd2ne : d2.id ≠ did := by
        intro hc
        apply hdnot
        rw [← hdid] at hc
        exact hc ▸ List.mem_map_of_mem Drone.id hd2
      rw [if_neg hd2ne] at hfd2
      subst hfd2
      rw [if_pos hdid]
      intro o ho
      have hoeq : oid = o := Option.some.inj ho
      subst hoeq
      exact hno d2 (List.mem_cons_of_mem _ hd2) hd2ne
    · rw [if_neg hdid]
      by_cases hd2id : d2.id = did
      · rw [if_pos hd2id] at hfd2
        subst hfd2
        intro o ho hc
        have hoeq : oid = o := Option.some.inj hc
        subst hoeq
        exact hno d (List.mem_cons_self _ _) hdid ho
      · rw [if_neg hd2id] at hfd2
        subst hfd2
        exact hhead d2 hd2

theorem dronesInv_assignJob {s : Store} {did oid : Nat} {s2 : Store}
    (h : assignJob s did oid = Except.ok s2) (hi : DronesInv s) : DronesInv s2 := by
  unfold assignJob at h
  split at h
  · cases h
  · rename_i hcond
    have hs2 : s2 = { s with drones := s.drones.map (fun d =>
        if d.id = did then { d with assignedJob := some oid } else d) } :=
      (Except.ok.inj h).symm
    subst hs2
    obtain ⟨hnd, hua⟩ := hi
    by_cases hex : s.drones.any (fun d => decide (d.id = did)) = true
    · have hno : ∀ d ∈ s.drones, d.id ≠ did → d.assignedJob ≠ some oid := by
        intro d hd hne hasg
        apply hcond
        refine ⟨hex, ?_⟩
        rw [List.any_eq_true]
        exact ⟨d, hd, by simp [hne, hasg]⟩
      constructor
      · show ((s.drones.map _).map Drone.id).Nodup
        rw [List.map_map]
        have : s.drones.map (Drone.id ∘ fun d =>
            if d.id = did then { d with assignedJob := some oid } else d) =
            s.drones.map Drone.id := by
          apply List.map_congr_left
          intro d _
          by_cases hd : d.id = did <;> simp [hd]
        rw [this]
        exact hnd
      · exact pairwise_assign_update s.drones did oid hnd hno hua
    · have hidmap : s.drones.map (fun d =>
          if d.id = did then { d with assignedJob := some oid } else d) = s.drones := by
        have : ∀ d ∈ s.drones, (if d.id = did then { d with assignedJob := some oid } else d) = d := by
          intro d hd
          have hne : d.id ≠ did := by
            intro hc
            apply hex
            rw [List.any_eq_true]
            exact ⟨d, hd, by simp [hc]⟩
          rw [if_neg hne]
        calc s.drones.map _ = s.drones.map id := List.map_congr_left (fun d hd => this d hd)
          _ = s.drones := List.map_id _
      exact dronesInv_of_drones_eq (by simpa using hidmap) ⟨hnd, hua⟩

theorem dronesInv_createDrone {s : Store} {dname serial : String} {lat lng speed : ℚ}
    {assigned : Option Nat} {st : DroneStatus} {d : Drone} {s2 : Store}
    (h : createDrone s dname serial lat lng speed assigned st = Except.ok (d, s2))
    (hi : DronesInv s) : DronesInv s2 := by
  unfold createDrone at h
  split at h
  · cases h
  · split at h
    · cases h
    · rename_i hserial hasg
      have hs2 : s2 = { s with drones := s.drones ++
          [{ id := nextDroneId s, name := dname, serialNumber := serial,
             lat := lat, lng := lng, speedMPH := speed, assignedJob := assigned, status := st }] } := by
        have := Except.ok.inj h
        exact (congrArg Prod.snd this).symm
      subst hs2
      obtain ⟨hnd, hua⟩ := hi
      constructor
      · show ((s.drones ++ _).map Drone.id).Nodup
        rw [List.map_append, List.nodup_append]
        refine ⟨hnd, by simp, ?_⟩
        intro x hx hx2
        simp only [List.map_cons, List.map_nil, List.mem_cons, List.not_mem_nil, or_false] at hx2
        subst hx2
        exact nextDroneId_fresh s hx
      · show (s.drones ++ _).Pairwise _
        rw [List.pairwise_append]
        refine ⟨hua, List.pairwise_singleton _ _, ?_⟩
        intro a ha b hb
        simp only [List.mem_singleton] at hb
        subst hb
        intro o hao hbo
        apply hasg
        refine ⟨o, hbo, ?_⟩
        rw [List.any_eq_true]
        exact ⟨a, ha, by simp [hao]⟩

theorem dronesInv_unassign {s : Store} (did : Nat) (hi : DronesInv s) :
    DronesInv (unassignDrone s did) :=
  dronesInv_map _ (fun d => by by_cases h : d.id = did <;> simp [h])
    (fun d oid hasg => by
      by_cases h : d.id = did
      · rw [if_pos h] at hasg
        cases hasg
      · rwa [if_neg h] at hasg) hi

theorem dronesInv_droneStatusRow {s : Store} (did : Nat) (st : DroneStatus)
    (hi : DronesInv s) : DronesInv (updateDroneStatusRow s did st) :=
  dronesInv_map _ (fun d => by by_cases h : d.id = did <;> simp [h])
    (fun d oid hasg => by
      by_cases h : d.id = did
      · rw [if_pos h] at hasg
        exact hasg
      · rwa [if_neg h] at hasg) hi

theorem dronesInv_telemetry {s : Store} (did : Nat) (lat lng speed : ℚ)
    (hi : DronesInv s) : DronesInv (updateDroneTelemetry s did lat lng speed) :=
  dronesInv_map _ (fun d => by by_cases h : d.id = did <;> simp [h])
    (fun d oid hasg => by
      by_cases h : d.id = did
      · rw [if_pos h] at hasg
        exact hasg
      · rwa [if_neg h] at hasg) hi

theorem createUser_drones {s : Store} {uname : String} {u : User} {s2 : Store}
    (h : createUser s uname = Except.ok (u, s2)) : s2.drones = s.drones := by
  unfold createUser at h
  split at h
  · cases h
  · injection h with h2
    injection h2 with h3 h4
    rw [← h4]

theorem updateLocations_drones {s s2 : Store} {oid : Nat} {a b c d : ℚ}
    (h : updateLocations s oid a b c d = Except.ok s2) : s2.drones = s.drones := by
  unfold updateLocations at h
  split at h
  · injection h with h2
    rw [← h2]
  · cases h

theorem dronesInv_reserveCommit {s : Store} (dr : Drone) (ord : Order)
    (hi : DronesInv s) : DronesInv (reserveCommit s dr ord).2 := by
  unfold reserveCommit
  rcases h : assignJob s dr.id ord.id with e | s1
  · exact hi
  · show DronesInv (appendDronePath s1 ord.id dr.id)
    exact @dronesInv_of_drones_eq s1 _ rfl (dronesInv_assignJob h hi)

theorem dronesInv_finishBroken (flags : MarkBrokenFailures) (s : Store) (dr : Drone)
    (aff : Option Order) (hi : DronesInv s) : DronesInv (finishBroken flags s dr aff).2 := by
  unfold finishBroken
  split
  · exact hi
  · exact dronesInv_droneStatusRow _ _ hi

theorem dronesInv_reserveOrder (s : Store) (p : Principal) (hi : DronesInv s) :
    DronesInv (reserveOrder s p).2 := by
  unfold reserveOrder
  repeat' split
  all_goals first
    | exact hi
    | exact dronesInv_reserveCommit _ _ hi

theorem dronesInv_grabOrder (hav : DistanceFn) (s : Store) (p : Principal) (hi : DronesInv s) :
    DronesInv (grabOrder hav s p).2 := by
  simp only [grabOrder]
  repeat' split
  all_goals first
    | exact hi
    | exact dronesInv_unassign _ hi
    | exact dronesInv_of_drones_eq rfl hi

theorem dronesInv_completeOrder (hav : DistanceFn) (s : Store) (p : Principal)
    (delivered : Bool) (hi : DronesInv s) : DronesInv (completeOrder hav s p delivered).2 := by
  simp only [completeOrder]
  repeat' split
  all_goals first
    | exact hi
    | exact dronesInv_unassign _ hi
    | exact dronesInv_unassign _ (dronesInv_of_drones_eq rfl hi)

theorem dronesInv_markBrokenWith (flags : MarkBrokenFailures) (s : Store) (p : Principal)
    (hi : DronesInv s) : DronesInv (markBrokenWith flags s p).2 := by
  simp only [markBrokenWith]
  repeat' split
  all_goals first
    | exact hi
    | exact dronesInv_of_drones_eq rfl hi
    | exact dronesInv_finishBroken _ _ _ _ hi
    | exact dronesInv_finishBroken _ _ _ _ (dronesInv_unassign _ hi)
    | exact dronesInv_finishBroken _ _ _ _ (dronesInv_unassign _ (dronesInv_of_drones_eq rfl hi))

theorem dronesInv_heartbeat (s : Store) (p : Principal) (loc : Option (ℚ × ℚ)) (speed : ℚ)
    (hi : DronesInv s) : DronesInv (heartbeat s p loc speed).2 := by
  simp only [heartbeat]
  repeat' split
  all_goals first
    | exact hi
    | exact dronesInv_telemetry _ _ _ _ hi

theorem dronesInv_setOrder (s : Store) (p : Principal) (a b c d : ℚ) (now : Nat)
    (hi : DronesInv s) : DronesInv (setOrder s p a b c d now).2 := by
  simp only [setOrder]
  repeat' split
  all_goals first
    | exact hi
    | exact dronesInv_of_drones_eq rfl hi

theorem dronesInv_withdrawOrder (s : Store) (p : Principal) (oid : Nat)
    (hi : DronesInv s) : DronesInv (withdrawOrder s p oid).2 := by
  simp only [withdrawOrder]
  repeat' split
  all_goals first
    | exact hi
    | exact dronesInv_of_drones_eq rfl hi

theorem dronesInv_adminOrderLoc (s : Store) (p : Principal) (oid : Nat) (a b c d : ℚ)
    (hi : DronesInv s) : DronesInv (adminUpdateOrderLocation s p oid a b c d).2 := by
  simp only [adminUpdateOrderLocation]
  repeat' split
  all_goals first
    | exact hi
    | exact dronesInv_of_drones_eq (updateLocations_drones (by assumption)) hi

theorem dronesInv_adminDroneStatus (s : Store) (p : Principal) (did : Nat)
    (st : Option DroneStatus) (hi : DronesInv s) :
    DronesInv (adminUpdateDroneStatus s p did st).2 := by
  simp only [adminUpdateDroneStatus]
  repeat' split
  all_goals first
    | exact hi
    | exact dronesInv_droneStatusRow _ _ hi

theorem dronesInv_updateRole (s : Store) (uname role : String) (hi : DronesInv s) :
    DronesInv (updateRoleByUsername s uname role) :=
  dronesInv_of_drones_eq rfl hi

theorem dronesInv_step {hav : DistanceFn} {s s2 : Store} (hstep : Step hav s s2)
    (hi : DronesInv s) : DronesInv s2 := by
  cases hstep with
  | setOrderStep p a b c d now => exact dronesInv_setOrder s p a b c d now hi
  | withdrawStep p oid => exact dronesInv_withdrawOrder s p oid hi
  | reserveStep p => exact dronesInv_reserveOrder s p hi
  | grabStep p => exact dronesInv_grabOrder hav s p hi
  | completeStep p delivered => exact dronesInv_completeOrder hav s p delivered hi
  | brokenStep p flags => exact dronesInv_markBrokenWith flags s p hi
  | heartbeatStep p loc speed => exact dronesInv_heartbeat s p loc speed hi
  | adminOrderLocStep p oid a b c d => exact dronesInv_adminOrderLoc s p oid a b c d hi
  | adminDroneStatusStep p did st => exact dronesInv_adminDroneStatus s p did st hi
  | updateRoleStep uname role => exact dronesInv_updateRole s uname role hi
  | newUserStep uname u s3 h => exact dronesInv_of_drones_eq (createUser_drones h) hi
  | newDroneStep dname serial lat lng speed assigned st d s3 h =>
      exact dronesInv_createDrone h hi

theorem dronesInv_reachable {hav : DistanceFn} {s : Store} (h : Reachable hav s) :
    DronesInv s := by
  induction h with
  | init => exact ⟨List.nodup_nil, List.Pairwise.nil⟩
  | step _ hstep ih => exact dronesInv_step hstep ih

/-- C2: in every state reachable by the service's operations, each order id
appears in at most one drone row's `assignedJob`; an `AssignJob(d, o)` call
made while a different drone row already holds `o` fails with a uniqueness
violation and leaves the store — in particular `d`'s row — unchanged; and the
`ReserveOrder` commit surfaces that failure to its caller as an Aborted
(assign race) error with the store unchanged. -/
theorem assignment_uniqueness (hav : DistanceFn) :
    (∀ s, Reachable hav s → UniqueAssignment s)
    ∧ (∀ (s : Store) (d : Drone) (oid : Nat), d ∈ s.drones →
        (∃ d2 ∈ s.drones, d2.id ≠ d.id ∧ d2.assignedJob = some oid) →
        assignJob s d.id oid = Except.error DbError.uniqueViolation)
    ∧ (∀ (s : Store) (dr : Drone) (ord : Order), dr ∈ s.drones →
        (∃ d2 ∈ s.drones, d2.id ≠ dr.id ∧ d2.assignedJob = some ord.id) →
        reserveCommit s dr ord = (Except.error GrpcCode.aborted, s)) := by
  have hfail : ∀ (s : Store) (d : Drone) (oid : Nat), d ∈ s.drones →
      (∃ d2 ∈ s.drones, d2.id ≠ d.id ∧ d2.assignedJob = some oid) →
      assignJob s d.id oid = Except.error DbError.uniqueViolation := by
    intro s d oid hd ⟨d2, hd2, hne, hasg⟩
    unfold assignJob
    rw [if_pos]
    constructor
    · rw [List.any_eq_true]
      exact ⟨d, hd, by simp⟩
    · rw [List.any_eq_true]
      exact ⟨d2, hd2, by simp [hne, hasg]⟩
  refine ⟨?_, hfail, ?_⟩
  · intro s hreach
    exact (dronesInv_reachable hreach).2
  · intro s dr ord hdr hex
    unfold reserveCommit
    rw [hfail s dr ord.id hdr hex]

/-- Store of the uniqueness witness: drone 2 already holds order 5. -/
def raceStore : Store :=
  { users := [],
    orders := [{ id := 5, originLat := 0, originLng := 0, destLat := 1, destLng := 1,
                 status := OrderStatus.placed, placementAt := 1, submittedBy := 1,
                 pickupLat := none, pickupLng := none, dronePath := "" }],
    drones :=
      [{ id := 1, name := "a", serialNumber := "S-1", lat := 0, lng := 0,
         speedMPH := 1, assignedJob := none, status := DroneStatus.fixed },
       { id := 2, name := "b", serialNumber := "S-2", lat := 0, lng := 0,
         speedMPH := 1, assignedJob := some 5, status := DroneStatus.fixed }] }

/-- The losing drone row of the uniqueness witness. -/
def raceDrone : Drone :=
  { id := 1, name := "a", serialNumber := "S-1", lat := 0, lng := 0,
    speedMPH := 1, assignedJob := none, status := DroneStatus.fixed }

/-- The contested order of the uniqueness witness. -/
def raceOrder : Order :=
  { id := 5, originLat := 0, originLng := 0, destLat := 1, destLng := 1,
    status := OrderStatus.placed, placementAt := 1, submittedBy := 1,
    pickupLat := none, pickupLng := none, dronePath := "" }

theorem assignment_uniqueness_witness :
    UniqueAssignment emptyStore
    ∧ assignJob raceStore 1 5 = Except.error DbError.uniqueViolation
    ∧ reserveCommit raceStore raceDrone raceOrder = (Except.error GrpcCode.aborted, raceStore) := by
  refine ⟨(assignment_uniqueness (fun _ _ _ _ => 0)).1 emptyStore Reachable.init, ?_, ?_⟩
  · exact (assignment_uniqueness (fun _ _ _ _ => 0)).2.1 raceStore raceDrone 5 (by decide)
      ⟨{ id := 2, name := "b", serialNumber := "S-2", lat := 0, lng := 0,
         speedMPH := 1, assignedJob := some 5, status := DroneStatus.fixed }, by decide, by decide, by decide⟩
  · exact (assignment_uniqueness (fun _ _ _ _ => 0)).2.2 raceStore raceDrone raceOrder (by decide)
      ⟨{ id := 2, name := "b", serialNumber := "S-2", lat := 0, lng := 0,
         speedMPH := 1, assignedJob := some 5, status := DroneStatus.fixed }, by decide, by decide, by decide⟩

/-- Store of the terminal-transition demonstration: order 1 of user bob is
already in the terminal status `delivered`. -/
def termStore : Store :=
  { users := [{ id := 1, username := "bob", role := "end user" }],
    orders := [{ id := 1, originLat := 0, originLng := 0, destLat := 1, destLng := 1,
                 status := OrderStatus.delivered, placementAt := 1, submittedBy := 1,
                 pickupLat := none, pickupLng := none, dronePath := "" }],
    drones := [] }

/-- C3 (violated by the code): terminal statuses are not absorbing. With order
1 already `delivered`, the submitter's `WithdrawOrder` call succeeds and
overwrites the terminal status with `withdrawn` — the handler never checks the
current status before writing. -/
theorem terminal_status_not_absorbing :
    (findOrder termStore 1).map Order.status = some OrderStatus.delivered
    ∧ (withdrawOrder termStore ⟨"bob", "enduser"⟩ 1).1 =
        Except.ok { id := 1, originLat := 0, originLng := 0, destLat := 1, destLng := 1,
                    status := OrderStatus.withdrawn, placementAt := 1, submittedBy := 1,
                    pickupLat := none, pickupLng := none, dronePath := "" }
    ∧ (findOrder (withdrawOrder termStore ⟨"bob", "enduser"⟩ 1).2 1).map Order.status =
        some OrderStatus.withdrawn := by
  decide

theorem find?_update_same {α : Type} (key : α → Nat) (k : Nat) (g : α → α)
    (hg : ∀ a, key (g a) = key a) (l : List α) :
    (l.map (fun a => if key a = k then g a else a)).find? (fun a => decide (key a = k)) =
      (l.find? (fun a => decide (key a = k))).map g := by
  induction l with
  | nil => rfl
  | cons a rest ih =>
    by_cases h : key a = k
    · rw [List.map_cons, if_pos h, List.find?_cons_of_pos, List.find?_cons_of_pos]
      · rfl
      · simpa using h
      · simp [hg a, h]
    · rw [List.map_cons, if_neg h, List.find?_cons_of_neg, List.find?_cons_of_neg]
      · exact ih
      · simpa using h
      · simpa using h

theorem find?_update_other {α : Type} (key : α → Nat) (k k2 : Nat) (g : α → α)
    (hg : ∀ a, key (g a) = key a) (l : List α) (hne : k ≠ k2) :
    (l.map (fun a => if key a = k then g a else a)).find? (fun a => decide (key a = k2)) =
      l.find? (fun a => decide (key a = k2)) := by
  induction l with
  | nil => rfl
  | cons a rest ih =>
    by_cases h : key a = k
    · rw [List.map_cons, if_pos h, List.find?_cons_of_neg, List.find?_cons_of_neg]
      · exact ih
      · simp
        omega
      · simp [hg a]
        omega
    · by_cases h2 : key a = k2
      · rw [List.map_cons, if_neg h, List.find?_cons_of_pos, List.find?_cons_of_pos]
        · simpa using h2
        · simpa using h2
      · rw [List.map_cons, if_neg h, List.find?_cons_of_neg, List.find?_cons_of_neg]
        · exact ih
        · simpa using h2
        · simpa using h2

theorem findOrder_updateStatus (s : Store) (oid : Nat) (st : OrderStatus) :
    findOrder (updateOrderStatus s oid st) oid =
      (findOrder s oid).map (fun o => { o with status := st }) :=
  find?_update_same Order.id oid (fun o => { o with status := st }) (fun _ => rfl) s.orders

theorem findOrder_updateStatus_other (s : Store) (oid : Nat) (st : OrderStatus)
    (oid2 : Nat) (h : oid ≠ oid2) :
    findOrder (updateOrderStatus s oid st) oid2 = findOrder s oid2 :=
  find?_update_other Order.id oid oid2 (fun o => { o with status := st }) (fun _ => rfl) s.orders h

theorem findOrder_updatePickup (s : Store) (oid : Nat) (lat lng : ℚ) :
    findOrder (updateOrderPickup s oid lat lng) oid =
      (findOrder s oid).map (fun o => { o with pickupLat := some lat, pickupLng := some lng }) :=
  find?_update_same Order.id oid (fun o => { o with pickupLat := some lat, pickupLng := some lng })
    (fun _ => rfl) s.orders

theorem findDrone_unassign (s : Store) (did : Nat) :
    findDrone (unassignDrone s did) did =
      (findDrone s did).map (fun d => { d with assignedJob := none }) :=
  find?_update_same Drone.id did (fun d => { d with assignedJob := none }) (fun _ => rfl) s.drones

theorem findDrone_statusRow (s : Store) (did : Nat) (st : DroneStatus) :
    findDrone (updateDroneStatusRow s did st) did =
      (findDrone s did).map (fun d => { d with status := st }) :=
  find?_update_same Drone.id did (fun d => { d with status := st }) (fun _ => rfl) s.drones

/-- The handed-off image of an order: status `to pick up`, pickup coordinates
set to the carrying drone's position. -/
def handoffOrder (ord : Order) (lat lng : ℚ) : Order :=
  { ord with status := OrderStatus.toPickUp, pickupLat := some lat, pickupLng := some lng }

/-- The post-`MarkBroken` image of a drone row: unassigned and `broken`. -/
def brokenUnassigned (d : Drone) : Drone :=
  { d with assignedJob := none, status := DroneStatus.broken }

/-- C4: `MarkBroken` with the drone resolved. If the drone carries an existing
order in `en route`, the order is handed off: its status becomes `to pick up`
and its pickup coordinates become the drone's current position, the drone is
unassigned and marked `broken`, and the affected (handed-off) order is
returned. If the drone has no assignment, no handoff happens and the drone is
marked `broken`. If the assigned order exists but is not `en route`, no
handoff happens, the order is untouched, and the drone is unassigned and
marked `broken`. -/
theorem markBroken_spec (s : Store) (p : Principal) (dr : Drone)
    (hk : p.kind = "drone") (hres : resolveDrone s p.name = some dr)
    (hfd : findDrone s dr.id = some dr) :
    (∀ oid ord, dr.assignedJob = some oid → findOrder s oid = some ord →
      ord.status = OrderStatus.enRoute →
      (markBroken s p).1 = Except.ok (some (handoffOrder ord dr.lat dr.lng))
      ∧ findOrder (markBroken s p).2 oid = some (handoffOrder ord dr.lat dr.lng)
      ∧ findDrone (markBroken s p).2 dr.id = some (brokenUnassigned dr))
    ∧ (dr.assignedJob = none →
      (markBroken s p).1 = Except.ok none
      ∧ findDrone (markBroken s p).2 dr.id = some { dr with status := DroneStatus.broken })
    ∧ (∀ oid ord, dr.assignedJob = some oid → findOrder s oid = some ord →
      ord.status ≠ OrderStatus.enRoute →
      (markBroken s p).1 = Except.ok none
      ∧ findOrder (markBroken s p).2 oid = some ord
      ∧ findDrone (markBroken s p).2 dr.id = some (brokenUnassigned dr)) := by
  have hknd : ¬ p.kind ≠ "drone" := by simp [hk]
  refine ⟨?_, ?_, ?_⟩
  · intro oid ord h1 h2 h3
    have hoid : ord.id = oid := by
      have := List.find?_some h2
      simpa using this
    have hcalc : markBroken s p =
        (Except.ok (findOrder (updateOrderPickup (updateOrderStatus s oid
              OrderStatus.toPickUp) oid dr.lat dr.lng) ord.id),
          updateDroneStatusRow (unassignDrone (updateOrderPickup (updateOrderStatus s oid
            OrderStatus.toPickUp) oid dr.lat dr.lng) dr.id) dr.id DroneStatus.broken) := by
      unfold markBroken markBrokenWith
      simp only [if_neg hknd, hres, h1, h2, if_pos h3]
      unfold finishBroken
      norm_num
      try rfl
    have hordfound : findOrder (updateOrderPickup (updateOrderStatus s oid
        OrderStatus.toPickUp) oid dr.lat dr.lng) oid =
        some (handoffOrder ord dr.lat dr.lng) := by
      rw [findOrder_updatePickup, findOrder_updateStatus, h2]
      rfl
    refine ⟨?_, ?_, ?_⟩
    · rw [hcalc]
      rw [hoid, hordfound]
    · rw [hcalc]
      show findOrder (updateOrderPickup (updateOrderStatus s oid
          OrderStatus.toPickUp) oid dr.lat dr.lng) oid = _
      exact hordfound
    · rw [hcalc]
      show findDrone (updateDroneStatusRow (unassignDrone (updateOrderPickup
          (updateOrderStatus s oid OrderStatus.toPickUp) oid dr.lat dr.lng) dr.id)
          dr.id DroneStatus.broken) dr.id = _
      rw [findDrone_statusRow, findDrone_unassign]
      show ((findDrone s dr.id).map _).map _ = _
      rw [hfd]
      rfl
  · intro h1
    have hcalc : markBroken s p =
        (Except.ok none, updateDroneStatusRow s dr.id DroneStatus.broken) := by
      unfold markBroken markBrokenWith
      simp only [if_neg hknd, hres, h1]
      unfold finishBroken
      norm_num
      try rfl
    refine ⟨by rw [hcalc], ?_⟩
    rw [hcalc]
    show findDrone (updateDroneStatusRow s dr.id DroneStatus.broken) dr.id = _
    rw [findDrone_statusRow, hfd]
    rfl
  · intro oid ord h1 h2 h3
    have hcalc : markBroken s p =
        (Except.ok none,
          updateDroneStatusRow (unassignDrone s dr.id) dr.id DroneStatus.broken) := by
      unfold markBroken markBrokenWith
      simp only [if_neg hknd, hres, h1, h2, if_neg h3]
      unfold finishBroken
      norm_num
      try rfl
    refine ⟨by rw [hcalc], ?_, ?_⟩
    · rw [hcalc]
      show findOrder s oid = _
      exact h2
    · rw [hcalc]
      show findDrone (updateDroneStatusRow (unassignDrone s dr.id) dr.id
          DroneStatus.broken) dr.id = _
      rw [findDrone_statusRow, findDrone_unassign, hfd]
      rfl

/-- Carrying drone of the handoff witness. -/
def mbDrone : Drone :=
  { id := 1, name := "d1", serialNumber := "S-1", lat := 2, lng := 3,
    speedMPH := 10, assignedJob := some 4, status := DroneStatus.fixed }

/-- In-flight order of the handoff witness. -/
def mbOrder : Order :=
  { id := 4, originLat := 0, originLng := 0, destLat := 1, destLng := 1,
    status := OrderStatus.enRoute, placementAt := 1, submittedBy := 1,
    pickupLat := none, pickupLng := none, dronePath := "1" }

/-- Store of the handoff witness. -/
def mbStore : Store :=
  { users := [], orders := [mbOrder], drones := [mbDrone] }

theorem markBroken_spec_witness :
    (markBroken mbStore ⟨"S-1", "drone"⟩).1 =
        Except.ok (some (handoffOrder mbOrder mbDrone.lat mbDrone.lng))
    ∧ findDrone (markBroken mbStore ⟨"S-1", "drone"⟩).2 1 = some (brokenUnassigned mbDrone) := by
  have h := markBroken_spec mbStore ⟨"S-1", "drone"⟩ mbDrone (by decide) (by decide) (by decide)
  have ha := h.1 4 mbOrder (by decide) (by decide) (by decide)
  exact ⟨ha.1, ha.2.2⟩

/-- C5: `GrabOrder` with the drone resolved holding an existing order. The
call succeeds exactly when the order's status is `placed` or `to pick up` and
the drone is within the 100-foot radius (Haversine distance at most
`radiusMiles`) of the pickup target; every failure under these hypotheses is a
FailedPrecondition error; on success the order's status becomes `en route`;
and the pickup target is the origin for `placed` orders and the pickup
coordinates for `to pick up` orders when both are set, else the origin. -/
theorem grabOrder_spec (hav : DistanceFn) (s : Store) (p : Principal) (dr : Drone)
    (oid : Nat) (ord : Order)
    (hk : p.kind = "drone") (hres : resolveDrone s p.name = some dr)
    (h1 : dr.assignedJob = some oid) (h2 : findOrder s oid = some ord) :
    ((∃ o2, (grabOrder hav s p).1 = Except.ok o2) ↔
      ((ord.status = OrderStatus.placed ∨ ord.status = OrderStatus.toPickUp)
        ∧ hav dr.lat dr.lng (grabTarget ord).1 (grabTarget ord).2 ≤ radiusMiles))
    ∧ (∀ c, (grabOrder hav s p).1 = Except.error c → c = GrpcCode.failedPrecondition)
    ∧ (((ord.status = OrderStatus.placed ∨ ord.status = OrderStatus.toPickUp)
        ∧ hav dr.lat dr.lng (grabTarget ord).1 (grabTarget ord).2 ≤ radiusMiles) →
      (grabOrder hav s p).1 = Except.ok { ord with status := OrderStatus.enRoute }
      ∧ findOrder (grabOrder hav s p).2 oid = some { ord with status := OrderStatus.enRoute })
    ∧ (ord.status = OrderStatus.placed → grabTarget ord = (ord.originLat, ord.originLng))
    ∧ (ord.status = OrderStatus.toPickUp → ord.pickupLat.isSome → ord.pickupLng.isSome →
        grabTarget ord = (ord.pickupLat.getD 0, ord.pickupLng.getD 0))
    ∧ (ord.status = OrderStatus.toPickUp → ¬(ord.pickupLat.isSome ∧ ord.pickupLng.isSome) →
        grabTarget ord = (ord.originLat, ord.originLng)) := by
  have hknd : ¬ p.kind ≠ "drone" := by simp [hk]
  have hg : grabOrder hav s p =
      if ord.status ≠ OrderStatus.placed ∧ ord.status ≠ OrderStatus.toPickUp then
        (Except.error GrpcCode.failedPrecondition, s)
      else if hav dr.lat dr.lng (grabTarget ord).1 (grabTarget ord).2 > radiusMiles then
        (Except.error GrpcCode.failedPrecondition, s)
      else (Except.ok ((findOrder (updateOrderStatus s oid OrderStatus.enRoute) oid).getD ord),
            updateOrderStatus s oid OrderStatus.enRoute) := by
    unfold grabOrder
    simp only [if_neg hknd, hres, h1, h2]
  have hsucc : ((ord.status = OrderStatus.placed ∨ ord.status = OrderStatus.toPickUp)
      ∧ hav dr.lat dr.lng (grabTarget ord).1 (grabTarget ord).2 ≤ radiusMiles) →
      (grabOrder hav s p).1 = Except.ok { ord with status := OrderStatus.enRoute }
      ∧ findOrder (grabOrder hav s p).2 oid = some { ord with status := OrderStatus.enRoute } := by
    rintro ⟨hst, hdist⟩
    have hc1 : ¬(ord.status ≠ OrderStatus.placed ∧ ord.status ≠ OrderStatus.toPickUp) := by
      rcases hst with h | h <;> simp [h]
    have hc2 : ¬(hav dr.lat dr.lng (grabTarget ord).1 (grabTarget ord).2 > radiusMiles) :=
      not_lt.mpr hdist
    rw [hg, if_neg hc1, if_neg hc2]
    constructor
    · show Except.ok ((findOrder (updateOrderStatus s oid OrderStatus.enRoute) oid).getD ord) = _
      rw [findOrder_updateStatus, h2]
      rfl
    · show findOrder (updateOrderStatus s oid OrderStatus.enRoute) oid = _
      rw [findOrder_updateStatus, h2]
      rfl
  have hfailst : ¬(ord.status = OrderStatus.placed ∨ ord.status = OrderStatus.toPickUp) →
      (grabOrder hav s p).1 = Except.error GrpcCode.failedPrecondition := by
    intro hst
    have hc1 : ord.status ≠ OrderStatus.placed ∧ ord.status ≠ OrderStatus.toPickUp := by
      constructor <;> intro h <;> exact hst (by simp [h])
    rw [hg, if_pos hc1]
  have hfaildist : hav dr.lat dr.lng (grabTarget ord).1 (grabTarget ord).2 > radiusMiles →
      (grabOrder hav s p).1 = Except.error GrpcCode.failedPrecondition := by
    intro hgt
    rw [hg]
    by_cases hc1 : ord.status ≠ OrderStatus.placed ∧ ord.status ≠ OrderStatus.toPickUp
    · rw [if_pos hc1]
    · rw [if_neg hc1, if_pos hgt]
  refine ⟨?_, ?_, hsucc, ?_, ?_, ?_⟩
  · constructor
    · rintro ⟨o2, ho2⟩
      by_cases hst : ord.status = OrderStatus.placed ∨ ord.status = OrderStatus.toPickUp
      · by_cases hdist : hav dr.lat dr.lng (grabTarget ord).1 (grabTarget ord).2 ≤ radiusMiles
        · exact ⟨hst, hdist⟩
        · rw [hfaildist (not_le.mp hdist)] at ho2
          cases ho2
      · rw [hfailst hst] at ho2
        cases ho2
    · intro hc
      exact ⟨_, (hsucc hc).1⟩
  · intro c hc
    by_cases hst : ord.status = OrderStatus.placed ∨ ord.status = OrderStatus.toPickUp
    · by_cases hdist : hav dr.lat dr.lng (grabTarget ord).1 (grabTarget ord).2 ≤ radiusMiles
      · rw [(hsucc ⟨hst, hdist⟩).1] at hc
        cases hc
      · rw [hfaildist (not_le.mp hdist)] at hc
        exact (Except.error.inj hc).symm
    · rw [hfailst hst] at hc
      exact (Except.error.inj hc).symm
  · intro hp
    unfold grabTarget
    rw [if_neg]
    rintro ⟨hc, -⟩
    rw [hp] at hc
    cases hc
  · intro ht hp1 hp2
    unfold grabTarget
    rw [if_pos ⟨ht, hp1, hp2⟩]
  · intro ht hnp
    unfold grabTarget
    rw [if_neg]
    rintro ⟨-, hp1, hp2⟩
    exact hnp ⟨hp1, hp2⟩

/-- Assigned drone of the grab witness, sitting at the order's origin. -/
def gbDrone : Drone :=
  { id := 1, name := "d1", serialNumber := "S-1", lat := 0, lng := 0,
    speedMPH := 10, assignedJob := some 4, status := DroneStatus.fixed }

/-- Placed order of the grab witness. -/
def gbOrder : Order :=
  { id := 4, originLat := 0, originLng := 0, destLat := 1, destLng := 1,
    status := OrderStatus.placed, placementAt := 1, submittedBy := 1,
    pickupLat := none, pickupLng := none, dronePath := "1" }

/-- Store of the grab witness. -/
def gbStore : Store := { users := [], orders := [gbOrder], drones := [gbDrone] }

theorem grabOrder_spec_witness :
    (grabOrder (fun _ _ _ _ => 0) gbStore ⟨"S-1", "drone"⟩).1 =
      Except.ok { gbOrder with status := OrderStatus.enRoute } := by
  have h := grabOrder_spec (fun _ _ _ _ => 0) gbStore ⟨"S-1", "drone"⟩ gbDrone 4 gbOrder
    (by decide) (by decide) (by decide) (by decide)
  exact (h.2.2.1 ⟨Or.inl (by decide), le_of_lt (div_pos (by decide) (by decide))⟩).1

/-- The ETA start point as the claim words it: the order's origin, or the
pickup coordinates when the status is `to pick up` and both are set. -/
def etaStart (ord : Order) : ℚ × ℚ :=
  if ord.status = OrderStatus.toPickUp ∧ ord.pickupLat.isSome ∧ ord.pickupLng.isSome then
    (ord.pickupLat.getD 0, ord.pickupLng.getD 0)
  else (ord.originLat, ord.originLng)

/-- The ETA formula as the claim words it: 0 for nonpositive speed, the
two-leg time for `placed` and `to pick up`, the direct-to-destination time for
`en route`, 0 otherwise. -/
def etaSpecFormula (hav : DistanceFn) (ord : Order) (dr : Drone) : ℚ :=
  if dr.speedMPH ≤ 0 then 0
  else if ord.status = OrderStatus.placed ∨ ord.status = OrderStatus.toPickUp then
    (hav dr.lat dr.lng (etaStart ord).1 (etaStart ord).2
      + hav (etaStart ord).1 (etaStart ord).2 ord.destLat ord.destLng) / dr.speedMPH * 3600
  else if ord.status = OrderStatus.enRoute then
    hav dr.lat dr.lng ord.destLat ord.destLng / dr.speedMPH * 3600
  else 0

/-- C6: for a drone with an assigned, existing order, `GetAssignedOrder`
returns the order together with an `etaSeconds` that equals the claim's
piecewise formula, and it does not change the store. -/
theorem getAssignedOrder_eta (hav : DistanceFn) (s : Store) (p : Principal) (dr : Drone)
    (oid : Nat) (ord : Order)
    (hk : p.kind = "drone") (hres : resolveDrone s p.name = some dr)
    (h1 : dr.assignedJob = some oid) (h2 : findOrder s oid = some ord) :
    (getAssignedOrder hav s p).1 = Except.ok (ord, etaSpecFormula hav ord dr)
    ∧ (getAssignedOrder hav s p).2 = s := by
  have hknd : ¬ p.kind ≠ "drone" := by simp [hk]
  have heq : calculateETA hav ord dr = etaSpecFormula hav ord dr := by
    cases hst : ord.status <;>
      simp [calculateETA, etaSpecFormula, etaStart, hst]
  constructor
  · show (getAssignedOrder hav s p).1 = _
    unfold getAssignedOrder
    simp only [if_neg hknd, hres, h1, h2]
    rw [heq]
  · unfold getAssignedOrder
    simp only [if_neg hknd, hres, h1, h2]

theorem getAssignedOrder_eta_witness :
    (getAssignedOrder (fun _ _ _ _ => 7) gbStore ⟨"S-1", "drone"⟩).1 =
      Except.ok (gbOrder, etaSpecFormula (fun _ _ _ _ => 7) gbOrder gbDrone) :=
  (getAssignedOrder_eta (fun _ _ _ _ => 7) gbStore ⟨"S-1", "drone"⟩ gbDrone 4 gbOrder
    (by decide) (by decide) (by decide) (by decide)).1

/-- C7: during `MarkBroken`, when the carried order is `en route` and the
handoff write (setting the order's status to `to pick up`) fails, the handler
returns an error and the store — in particular the drone's row and status — is
unchanged from before the call: the drone is not marked broken. -/
theorem markBroken_handoff_failure (s : Store) (p : Principal) (dr : Drone)
    (oid : Nat) (ord : Order) (flags : MarkBrokenFailures)
    (hk : p.kind = "drone") (hres : resolveDrone s p.name = some dr)
    (h1 : dr.assignedJob = some oid) (h2 : findOrder s oid = some ord)
    (h3 : ord.status = OrderStatus.enRoute) (hf : flags.statusWriteFails = true) :
    markBrokenWith flags s p = (Except.error GrpcCode.internal, s)
    ∧ findDrone (markBrokenWith flags s p).2 dr.id = findDrone s dr.id := by
  have hknd : ¬ p.kind ≠ "drone" := by simp [hk]
  have hcalc : markBrokenWith flags s p = (Except.error GrpcCode.internal, s) := by
    unfold markBrokenWith
    simp only [if_neg hknd, hres, h1, h2, if_pos h3]
    simp [hf]
  exact ⟨hcalc, by rw [hcalc]⟩

theorem markBroken_handoff_failure_witness :
    markBrokenWith ⟨true, false, false⟩ mbStore ⟨"S-1", "drone"⟩ =
      (Except.error GrpcCode.internal, mbStore) :=
  (markBroken_handoff_failure mbStore ⟨"S-1", "drone"⟩ mbDrone 4 mbOrder ⟨true, false, false⟩
    (by decide) (by decide) (by decide) (by decide) (by decide) (by decide)).1

/-- C8: the admin gate succeeds exactly when the principal self-claims kind
`admin` and the persisted user row for its name exists with a role equal to
`admin` after trimming and lowercasing; a self-claimed admin whose persisted
role is not `admin` (or who has no user row) receives PermissionDenied; every
gate failure is PermissionDenied; and the admin mutations return the gate's
error with the store unchanged whenever the gate fails. -/
theorem requireAdmin_spoof_defense (s : Store) (p : Principal) :
    (requireAdmin s p = Except.ok () ↔
      (p.kind = "admin" ∧ ∃ u, findUserByName s p.name = some u ∧ roleIsAdmin u.role = true))
    ∧ (p.kind = "admin" →
        (∀ u, findUserByName s p.name = some u → roleIsAdmin u.role = false) →
        requireAdmin s p = Except.error GrpcCode.permissionDenied)
    ∧ (∀ c, requireAdmin s p = Except.error c → c = GrpcCode.permissionDenied)
    ∧ (∀ oid a b c d e, requireAdmin s p = Except.error e →
        adminUpdateOrderLocation s p oid a b c d = (Except.error e, s))
    ∧ (∀ did st e, requireAdmin s p = Except.error e →
        adminUpdateDroneStatus s p did st = (Except.error e, s)) := by
  have hgate1 : ∀ (oid : Nat) (a b c d : ℚ) (e : GrpcCode), requireAdmin s p = Except.error e →
      adminUpdateOrderLocation s p oid a b c d = (Except.error e, s) := by
    intro oid a b c d e he
    unfold adminUpdateOrderLocation
    simp only [he]
  have hgate2 : ∀ (did : Nat) (st : Option DroneStatus) (e : GrpcCode),
      requireAdmin s p = Except.error e →
      adminUpdateDroneStatus s p did st = (Except.error e, s) := by
    intro did st e he
    unfold adminUpdateDroneStatus
    simp only [he]
  by_cases hk : p.kind = "admin"
  · cases hu : findUserByName s p.name with
    | none =>
      have hra : requireAdmin s p = Except.error GrpcCode.permissionDenied := by
        unfold requireAdmin
        simp only [if_neg (not_not_intro hk), hu]
      refine ⟨?_, ?_, ?_, hgate1, hgate2⟩
      · constructor
        · intro h
          rw [hra] at h
          cases h
        · rintro ⟨-, u, hu2, -⟩
          cases hu2
      · intro _ _
        exact hra
      · intro c hc
        rw [hra] at hc
        exact (Except.error.inj hc).symm
    | some u =>
      by_cases hrole : roleIsAdmin u.role = true
      · have hra : requireAdmin s p = Except.ok () := by
          unfold requireAdmin
          simp only [if_neg (not_not_intro hk), hu, if_pos hrole]
        refine ⟨?_, ?_, ?_, hgate1, hgate2⟩
        · exact ⟨fun _ => ⟨hk, u, rfl, hrole⟩, fun _ => hra⟩
        · intro _ hall
          have hfalse := hall u rfl
          rw [hrole] at hfalse
          cases hfalse
        · intro c hc
          rw [hra] at hc
          cases hc
      · have hra : requireAdmin s p = Except.error GrpcCode.permissionDenied := by
          unfold requireAdmin
          simp only [if_neg (not_not_intro hk), hu, if_neg hrole]
        refine ⟨?_, ?_, ?_, hgate1, hgate2⟩
        · constructor
          · intro h
            rw [hra] at h
            cases h
          · rintro ⟨-, u2, hu2, hrole2⟩
            cases Option.some.inj hu2
            exact absurd hrole2 hrole
        · intro _ _
          exact hra
        · intro c hc
          rw [hra] at hc
          exact (Except.error.inj hc).symm
  · have hra : requireAdmin s p = Except.error GrpcCode.permissionDenied := by
      unfold requireAdmin
      rw [if_pos hk]
    refine ⟨?_, ?_, ?_, hgate1, hgate2⟩
    · constructor
      · intro h
        rw [hra] at h
        cases h
      · rintro ⟨hk2, -⟩
        exact absurd hk2 hk
    · intro hk2 _
      exact absurd hk2 hk
    · intro c hc
      rw [hra] at hc
      exact (Except.error.inj hc).symm

/-- Store of the spoof-defense witness: alice is an end user, root is an admin. -/
def adminStore : Store :=
  { users := [{ id := 1, username := "alice", role := "end user" },
              { id := 2, username := "root", role := "admin" }],
    orders := [], drones := [] }

theorem requireAdmin_spoof_defense_witness :
    requireAdmin adminStore ⟨"alice", "admin"⟩ = Except.error GrpcCode.permissionDenied
    ∧ requireAdmin adminStore ⟨"root", "admin"⟩ = Except.ok () := by
  constructor
  · refine (requireAdmin_spoof_defense adminStore ⟨"alice", "admin"⟩).2.1 (by decide) ?_
    intro u hu
    have h0 : findUserByName adminStore "alice" = some ⟨1, "alice", "end user"⟩ := by decide
    rw [h0] at hu
    cases Option.some.inj hu
    decide
  · exact (requireAdmin_spoof_defense adminStore ⟨"root", "admin"⟩).1.mpr
      ⟨by decide, ⟨2, "root", "admin"⟩, by decide, by decide⟩

theorem b64Val_b64Char : ∀ v < 64, b64Val (b64Char v) = some v := by
  decide

theorem b64_roundtrip (l : List Nat) (hl : ∀ b ∈ l, b < 256) :
    b64DecodeChars (b64EncodeBytes l) = some l := by
  induction l using b64EncodeBytes.induct with
  | case1 => rfl
  | case2 b1 =>
    have h1 : b1 < 256 := hl b1 (by simp)
    simp only [b64EncodeBytes, b64DecodeChars]
    rw [b64Val_b64Char _ (by omega), b64Val_b64Char _ (by omega)]
    simp
    omega
  | case3 b1 b2 =>
    have h1 : b1 < 256 := hl b1 (by simp)
    have h2 : b2 < 256 := hl b2 (by simp)
    simp only [b64EncodeBytes, b64DecodeChars]
    rw [b64Val_b64Char _ (by omega), b64Val_b64Char _ (by omega), b64Val_b64Char _ (by omega)]
    simp
    constructor <;> omega
  | case4 b1 b2 b3 rest ih =>
    have h1 : b1 < 256 := hl b1 (by simp)
    have h2 : b2 < 256 := hl b2 (by simp)
    have h3 : b3 < 256 := hl b3 (by simp)
    have hrest : ∀ b ∈ rest, b < 256 := fun b hb => hl b (by simp [hb])
    simp only [b64EncodeBytes, b64DecodeChars]
    rw [b64Val_b64Char _ (by omega), b64Val_b64Char _ (by omega),
      b64Val_b64Char _ (by omega), b64Val_b64Char _ (by omega)]
    rw [ih hrest]
    simp
    refine ⟨by omega, by omega, by omega⟩

theorem b64DecodeChars_valid : ∀ (l : List Char) (bs : List Nat),
    b64DecodeChars l = some bs → ∀ c ∈ l, (b64Val c).isSome = true := by
  intro l
  induction l using b64DecodeChars.induct with
  | case1 =>
    intro bs h c hc
    cases hc
  | case2 c1 =>
    intro bs h
    cases h
  | case3 c1 c2 =>
    intro bs h c hc
    cases hv1 : b64Val c1 with
    | none => simp [b64DecodeChars, hv1] at h
    | some v1 =>
      cases hv2 : b64Val c2 with
      | none => simp [b64DecodeChars, hv1, hv2] at h
      | some v2 =>
        rcases List.mem_cons.mp hc with rfl | hc2
        · simp [hv1]
        · rcases List.mem_cons.mp hc2 with rfl | hc3
          · simp [hv2]
          · cases hc3
  | case4 c1 c2 c3 =>
    intro bs h c hc
    cases hv1 : b64Val c1 with
    | none => simp [b64DecodeChars, hv1] at h
    | some v1 =>
      cases hv2 : b64Val c2 with
      | none => simp [b64DecodeChars, hv1, hv2] at h
      | some v2 =>
        cases hv3 : b64Val c3 with
        | none => simp [b64DecodeChars, hv1, hv2, hv3] at h
        | some v3 =>
          rcases List.mem_cons.mp hc with rfl | hc2
          · simp [hv1]
          · rcases List.mem_cons.mp hc2 with rfl | hc3
            · simp [hv2]
            · rcases List.mem_cons.mp hc3 with rfl | hc4
              · simp [hv3]
              · cases hc4
  | case5 c1 c2 c3 c4 rest ih =>
    intro bs h c hc
    cases hv1 : b64Val c1 with
    | none => simp [b64DecodeChars, hv1] at h
    | some v1 =>
      cases hv2 : b64Val c2 with
      | none => simp [b64DecodeChars, hv1, hv2] at h
      | some v2 =>
        cases hv3 : b64Val c3 with
        | none => simp [b64DecodeChars, hv1, hv2, hv3] at h
        | some v3 =>
          cases hv4 : b64Val c4 with
          | none => simp [b64DecodeChars, hv1, hv2, hv3, hv4] at h
          | some v4 =>
            cases hrest : b64DecodeChars rest with
            | none => simp [b64DecodeChars, hv1, hv2, hv3, hv4, hrest] at h
            | some tl =>
              rcases List.mem_cons.mp hc with rfl | hc2
              · simp [hv1]
              · rcases List.mem_cons.mp hc2 with rfl | hc3
                · simp [hv2]
                · rcases List.mem_cons.mp hc3 with rfl | hc4
                  · simp [hv3]
                  · rcases List.mem_cons.mp hc4 with rfl | hc5
                    · simp [hv4]
                    · exact ih tl hrest c hc5

theorem b64DecodeChars_badChar (l : List Char) (c : Char) (hc : c ∈ l)
    (hbad : b64Val c = none) : b64DecodeChars l = none := by
  cases hdec : b64DecodeChars l with
  | none => rfl
  | some bs =>
    have hv := b64DecodeChars_valid l bs hdec c hc
    rw [hbad] at hv
    cases hv

theorem b64DecodeChars_badLen : ∀ l : List Char, l.length % 4 = 1 →
    b64DecodeChars l = none := by
  intro l
  induction l using b64DecodeChars.induct with
  | case1 =>
    intro h
    simp at h
  | case2 c1 =>
    intro _
    rfl
  | case3 c1 c2 =>
    intro h
    simp at h
  | case4 c1 c2 c3 =>
    intro h
    simp at h
  | case5 c1 c2 c3 c4 rest ih =>
    intro h
    have hr : rest.length % 4 = 1 := by
      simp only [List.length_cons] at h
      omega
    cases hv1 : b64Val c1 <;> cases hv2 : b64Val c2 <;>
      cases hv3 : b64Val c3 <;> cases hv4 : b64Val c4 <;>
      simp [b64DecodeChars, hv1, hv2, hv3, hv4, ih hr]

theorem splitAtSep_append (l r : List Nat) (hl : ¬ 124 ∈ l) :
    splitAtSep 124 (l ++ 124 :: r) = some (l, r) := by
  induction l with
  | nil => simp [splitAtSep]
  | cons b rest ih =>
    have hb : ¬ b = 124 := by
      intro hc
      exact hl (hc ▸ List.mem_cons_self _ _)
    have hrest : ¬ 124 ∈ rest := fun hc => hl (List.mem_cons_of_mem _ hc)
    simp only [List.cons_append, splitAtSep, List.append_eq]
    rw [if_neg hb, ih hrest]

theorem digitsVal_snoc (l : List Nat) (d : Nat) :
    digitsVal (l ++ [d]) = digitsVal l * 10 + (d - 48) := by
  unfold digitsVal
  rw [List.foldl_append]
  rfl

theorem decDigitsAux_spec : ∀ fuel n : Nat, n < fuel →
    decDigitsAux fuel n ≠ []
    ∧ (∀ b ∈ decDigitsAux fuel n, 48 ≤ b ∧ b ≤ 57)
    ∧ digitsVal (decDigitsAux fuel n) = n := by
  intro fuel
  induction fuel with
  | zero =>
    intro n h
    omega
  | succ fuel ih =>
    intro n hn
    by_cases h10 : n < 10
    · refine ⟨by simp [decDigitsAux, if_pos h10], ?_, ?_⟩
      · intro b hb
        simp [decDigitsAux, if_pos h10] at hb
        omega
      · simp [decDigitsAux, if_pos h10, digitsVal]
    · obtain ⟨hne, hbound, hval⟩ := ih (n / 10) (by omega)
      refine ⟨by simp [decDigitsAux, if_neg h10], ?_, ?_⟩
      · intro b hb
        simp only [decDigitsAux, if_neg h10] at hb
        rcases List.mem_append.mp hb with h | h
        · exact hbound b h
        · simp at h
          omega
      · simp only [decDigitsAux, if_neg h10]
        rw [digitsVal_snoc, hval]
        omega

theorem decDigits_spec (n : Nat) :
    decDigits n ≠ []
    ∧ (∀ b ∈ decDigits n, 48 ≤ b ∧ b ≤ 57)
    ∧ digitsVal (decDigits n) = n :=
  decDigitsAux_spec (n + 1) n (by omega)

theorem parseDec_decDigits (n : Nat) (hn : n < 2 ^ 63) :
    parseDecBytes (decDigits n) = some n := by
  obtain ⟨hne, hbound, hval⟩ := decDigits_spec n
  unfold parseDecBytes
  rw [if_neg hne, if_pos, hval, if_pos hn]
  rw [List.all_eq_true]
  intro b hb
  unfold isDigitByte
  have := hbound b hb
  simp
  omega

/-- C9: the pagination cursor codec. For every pair of in-range values,
`decodeCursor (encodeCursor seconds id)` succeeds and yields exactly
`(seconds, id)`; and every token that is not valid URL-safe base64 (a
character outside the alphabet, or a dangling single character in the last
block) fails to decode. -/
theorem cursor_roundtrip_and_invalid :
    (∀ seconds oid : Nat, seconds < 2 ^ 63 → 0 < oid → oid < 2 ^ 63 →
      decodeCursor (encodeCursor seconds oid) = some (seconds, oid))
    ∧ (∀ token : List Char, validB64 token = false → decodeCursor token = none) := by
  constructor
  · intro seconds oid hs _ hi
    obtain ⟨hne1, hbound1, hval1⟩ := decDigits_spec seconds
    obtain ⟨hne2, hbound2, hval2⟩ := decDigits_spec oid
    have hbytes : ∀ b ∈ decDigits seconds ++ 124 :: decDigits oid, b < 256 := by
      intro b hb
      rcases List.mem_append.mp hb with h | h
      · have := hbound1 b h
        omega
      · rcases List.mem_cons.mp h with rfl | h2
        · omega
        · have := hbound2 b h2
          omega
    have hnosep : ¬ 124 ∈ decDigits seconds := by
      intro hc
      have := hbound1 124 hc
      omega
    unfold encodeCursor decodeCursor
    rw [b64_roundtrip _ hbytes]
    simp only [Option.bind_eq_bind, Option.some_bind]
    rw [splitAtSep_append _ _ hnosep]
    simp only [Option.some_bind]
    rw [parseDec_decDigits seconds hs]
    simp only [Option.some_bind]
    rw [parseDec_decDigits oid hi]
    rfl
  · intro token h
    have hnone : b64DecodeChars token = none := by
      unfold validB64 at h
      rcases Bool.and_eq_false_iff.mp h with h1 | h2
      · rw [List.all_eq_false] at h1
        obtain ⟨c, hc, hbad⟩ := h1
        apply b64DecodeChars_badChar token c hc
        cases hv : b64Val c with
        | none => rfl
        | some v =>
          rw [hv] at hbad
          cases hbad rfl
      · have hlen : token.length % 4 = 1 := by
          have := of_decide_eq_false h2
          omega
        exact b64DecodeChars_badLen token hlen
    unfold decodeCursor
    rw [hnone]
    rfl

theorem cursor_roundtrip_and_invalid_witness :
    decodeCursor (encodeCursor 57 3) = some (57, 3)
    ∧ decodeCursor [Char.ofNat 33] = none :=
  ⟨cursor_roundtrip_and_invalid.1 57 3 (by decide) (by decide) (by decide),
   cursor_roundtrip_and_invalid.2 [Char.ofNat 33] (by decide)⟩

/-- The image of an order under `UpdateLocations`: only the four origin and
destination coordinates change. -/
def relocOrder (ord : Order) (a b c d : ℚ) : Order :=
  { ord with originLat := a, originLng := b, destLat := c, destLng := d }

/-- The store after a successful `UpdateLocations` write. -/
def applyReloc (s : Store) (oid : Nat) (a b c d : ℚ) : Store :=
  { s with
    orders := s.orders.map (fun o => if o.id = oid then relocOrder o a b c d else o) }

/-- C10: a successful admin `UpdateOrderLocation` on an existing order changes
only that order's `originLat`, `originLng`, `destLat` and `destLng` — the
returned and persisted row keeps its id, status, `placementAt`,
`submittedBy`, pickup coordinates and `dronePath` (for every current status,
`en route` and terminal statuses included) — every other order row is
unchanged, and no drone or user row is modified. -/
theorem updateOrderLocation_frame (s : Store) (p : Principal) (oid : Nat)
    (a b c d : ℚ) (ord : Order)
    (hadmin : requireAdmin s p = Except.ok ()) (h0 : ¬ oid = 0)
    (h2 : findOrder s oid = some ord) :
    (adminUpdateOrderLocation s p oid a b c d).1 = Except.ok (relocOrder ord a b c d)
    ∧ findOrder (adminUpdateOrderLocation s p oid a b c d).2 oid =
        some (relocOrder ord a b c d)
    ∧ (relocOrder ord a b c d).id = ord.id
    ∧ (relocOrder ord a b c d).status = ord.status
    ∧ (relocOrder ord a b c d).placementAt = ord.placementAt
    ∧ (relocOrder ord a b c d).submittedBy = ord.submittedBy
    ∧ (relocOrder ord a b c d).pickupLat = ord.pickupLat
    ∧ (relocOrder ord a b c d).pickupLng = ord.pickupLng
    ∧ (relocOrder ord a b c d).dronePath = ord.dronePath
    ∧ (∀ oid2, ¬ oid2 = oid →
        findOrder (adminUpdateOrderLocation s p oid a b c d).2 oid2 = findOrder s oid2)
    ∧ (adminUpdateOrderLocation s p oid a b c d).2.drones = s.drones
    ∧ (adminUpdateOrderLocation s p oid a b c d).2.users = s.users := by
  have hmem : ord ∈ s.orders := List.mem_of_find?_eq_some h2
  have hordid : ord.id = oid := by
    have := List.find?_some h2
    simpa using this
  have hany : s.orders.any (fun o => decide (o.id = oid)) = true := by
    rw [List.any_eq_true]
    exact ⟨ord, hmem, by simp [hordid]⟩
  have hupd : updateLocations s oid a b c d = Except.ok (applyReloc s oid a b c d) := by
    unfold updateLocations
    rw [if_pos hany]
    rfl
  have hfound : findOrder (applyReloc s oid a b c d) oid =
      some (relocOrder ord a b c d) := by
    have hsame := find?_update_same Order.id oid (fun o => relocOrder o a b c d)
      (fun _ => rfl) s.orders
    show (s.orders.map _).find? _ = _
    rw [hsame]
    show (findOrder s oid).map _ = _
    rw [h2]
    rfl
  have hcalc : adminUpdateOrderLocation s p oid a b c d =
      (Except.ok (relocOrder ord a b c d), applyReloc s oid a b c d) := by
    unfold adminUpdateOrderLocation
    simp only [hadmin, if_neg h0, hupd, hfound]
  rw [hcalc]
  refine ⟨rfl, hfound, rfl, rfl, rfl, rfl, rfl, rfl, rfl, ?_, rfl, rfl⟩
  intro oid2 hne
  show (s.orders.map _).find? _ = _
  rw [find?_update_other Order.id oid oid2 (fun o => relocOrder o a b c d)
    (fun _ => rfl) s.orders (fun hc => hne hc.symm)]
  rfl

/-- Store of the relocation witness: bob's order 1 is `en route`. -/
def relocStore : Store :=
  { users := [{ id := 1, username := "bob", role := "end user" },
              { id := 2, username := "root", role := "admin" }],
    orders := [{ id := 1, originLat := 0, originLng := 0, destLat := 1, destLng := 1,
                 status := OrderStatus.enRoute, placementAt := 1, submittedBy := 1,
                 pickupLat := none, pickupLng := none, dronePath := "1" }],
    drones := [] }

/-- The order row of the relocation witness. -/
def relocOrd : Order :=
  { id := 1, originLat := 0, originLng := 0, destLat := 1, destLng := 1,
    status := OrderStatus.enRoute, placementAt := 1, submittedBy := 1,
    pickupLat := none, pickupLng := none, dronePath := "1" }

theorem updateOrderLocation_frame_witness :
    (adminUpdateOrderLocation relocStore ⟨"root", "admin"⟩ 1 5 6 7 8).1 =
      Except.ok (relocOrder relocOrd 5 6 7 8)
    ∧ (adminUpdateOrderLocation relocStore ⟨"root", "admin"⟩ 1 5 6 7 8).2.drones =
        relocStore.drones := by
  have h := updateOrderLocation_frame relocStore ⟨"root", "admin"⟩ 1 5 6 7 8 relocOrd
    (by decide) (by decide) (by decide)
  exact ⟨h.1, h.2.2.2.2.2.2.2.2.2.2.1⟩

end DroneDelivery
